import Mathlib

/-!
Verification development for the newsletter-bot pipeline
(`newsletter_bot/app/{scheduler,bot,newsletter,summarizer,gmail_fetcher}.py`).

Text is modelled as `List Char` (Python `str` is a sequence of code points, and
Python `len`/slicing count code points, exactly as `List.length`/`List.take` do
here).  Python regular-expression passes are embedded as explicit scanners with
the same leftmost / greedy / lazy behaviour as `re.sub` on the inputs the code
feeds them.  `Char.toLower` covers the ASCII range, which is the range used by
every pattern literal in the source.
-/

set_option maxRecDepth 20000

/-- Python-style text: a list of unicode code points. -/
abbrev Str := List Char

/-- The character class of Python `\s` (and of `str.strip()` / `str.isspace`):
ASCII whitespace plus the unicode white-space code points. -/
def isPySpace (c : Char) : Bool :=
  c = ' ' || c = '\t' || c = '\n' || c = '\r' || c = '\x0B' || c = '\x0C' ||
  c = '\x1C' || c = '\x1D' || c = '\x1E' || c = '\x1F' || c = '\x85' || c = '\xA0' ||
  c = ' ' || (' ' ≤ c && c ≤ ' ') ||
  c = ' ' || c = ' ' || c = ' ' || c = ' ' || c = '　'

/-- `str.lower()` (ASCII range; every pattern in the source is ASCII). -/
def lowerStr (s : Str) : Str := s.map Char.toLower

/-- Does `pat` occur at the very start of `s`? -/
def startsList : Str → Str → Bool
  | [], _ => true
  | _ :: _, [] => false
  | p :: ps, c :: cs => p = c && startsList ps cs

/-- Python `pat in s`: does `pat` occur somewhere in `s`? -/
def containsSeq (pat : Str) : Str → Bool
  | [] => pat.isEmpty
  | c :: cs => startsList pat (c :: cs) || containsSeq pat cs

/-- Index of the first occurrence of `pat` in `s` (Python `s.find(pat)`). -/
def findOcc (pat : Str) : Str → Option Nat
  | [] => if pat.isEmpty then some 0 else none
  | c :: cs =>
    if startsList pat (c :: cs) then some 0
    else (findOcc pat cs).map (· + 1)

/-- Python `str.strip()`: drop leading and trailing whitespace. -/
def pyStrip (s : Str) : Str :=
  ((s.dropWhile isPySpace).reverse.dropWhile isPySpace).reverse

theorem dropWhile_length_le (p : Char → Bool) (l : Str) :
    (l.dropWhile p).length ≤ l.length := by
  induction l with
  | nil => simp
  | cons c cs ih =>
    by_cases h : p c
    · rw [List.dropWhile_cons_of_pos h]
      exact Nat.le_succ_of_le ih
    · rw [List.dropWhile_cons_of_neg h]

theorem drop_length_le (n : Nat) (l : Str) : (l.drop n).length ≤ l.length := by
  simp

/-- Worker for `collapseWs`: `inRun` records whether the previous character
belonged to a whitespace run already replaced by one space. -/
def collapseWsAux : Bool → Str → Str
  | _, [] => []
  | inRun, c :: cs =>
    if isPySpace c then
      if inRun then collapseWsAux true cs
      else ' ' :: collapseWsAux true cs
    else c :: collapseWsAux false cs

/-- Python `re.sub(r'\s+', ' ', s)`: collapse every maximal whitespace run
to a single space. -/
def collapseWs (s : Str) : Str := collapseWsAux false s

/-- Worker for `pyReplace`, structurally recursive on a fuel that bounds the
number of scan steps; every step consumes at least one input character, so
`s.length` fuel is always enough. -/
def pyReplaceAux (p0 : Char) (ps rep : Str) : Nat → Str → Str
  | 0, s => s
  | _, [] => []
  | fuel + 1, c :: cs =>
    if startsList (p0 :: ps) (c :: cs) then
      rep ++ pyReplaceAux p0 ps rep fuel (cs.drop ps.length)
    else c :: pyReplaceAux p0 ps rep fuel cs

/-- Python `s.replace(p0 :: ps, rep)` for a non-empty pattern: left-to-right,
non-overlapping replacement of every occurrence. -/
def pyReplace (p0 : Char) (ps rep : Str) (s : Str) : Str :=
  pyReplaceAux p0 ps rep s.length s

/-- Python `s.split('.')`: split at every dot, keeping empty pieces. -/
def splitDot : Str → List Str
  | [] => [[]]
  | c :: cs =>
    if c = '.' then [] :: splitDot cs
    else
      match splitDot cs with
      | s :: rest => (c :: s) :: rest
      | [] => [[c]]

/-! ## RunGate: `NewsletterScheduler._already_processed_today` and
`NewsletterBot.log_newsletter_sent` (claim C1)

A row of the `newsletter_logs` table.  `processed_at` defaults to SQLite
`CURRENT_TIMESTAMP`, which is the **UTC** wall clock; we model instants as
minutes since an epoch on that clock. -/

structure RunRecord where
  title : Str
  subscribers_count : Nat
  success : Bool
  processed_at : Nat
deriving DecidableEq

/-- SQLite `date(t)` groups an instant (minutes, UTC clock) into its UTC
civil calendar day. -/
def utcDay (t : Nat) : Nat := t / 1440

/-- The scheduler's configured local civil day: the CronTrigger timezone is
`Africa/Johannesburg` (SAST, UTC+2, no daylight saving). -/
def sastDay (t : Nat) : Nat := (t + 120) / 1440

/-- `NewsletterScheduler._already_processed_today`:
`SELECT COUNT(*) FROM newsletter_logs WHERE date(processed_at) = date('now')
AND success = TRUE`, then `count > 0`.  Both `date(processed_at)` and
`date('now')` are UTC dates in SQLite. -/
def alreadyProcessedToday (logs : List RunRecord) (now : Nat) : Bool :=
  0 < logs.countP (fun r => decide (utcDay r.processed_at = utcDay now) && r.success)

/-- The spec's `RunGate.shouldRun(day)`: the scheduler proceeds iff
`not self._already_processed_today()`. -/
def shouldRun (logs : List RunRecord) (now : Nat) : Bool :=
  !alreadyProcessedToday logs now

/-- `NewsletterBot.log_newsletter_sent` (the spec's `recordOutcome`):
`INSERT INTO newsletter_logs (title, subscribers_count, success)`, with
`processed_at` defaulting to the current UTC timestamp. -/
def logNewsletterSent (logs : List RunRecord) (title : Str)
    (subscriberCount : Nat) (success : Bool) (now : Nat) : List RunRecord :=
  logs ++ [⟨title, subscriberCount, success, now⟩]

/-- Modelled from the spec's words, for comparison with the code: a gate whose
day boundary is the scheduler's local (SAST) civil calendar day. -/
def shouldRunLocalDaySpec (logs : List RunRecord) (now : Nat) : Bool :=
  !(0 < logs.countP (fun r => decide (sastDay r.processed_at = sastDay now) && r.success))

theorem countP_append_single (logs : List RunRecord) (r : RunRecord)
    (p : RunRecord → Bool) :
    (logs ++ [r]).countP p = logs.countP p + (if p r then 1 else 0) := by
  simp [List.countP_append, List.countP_cons]

/-- C1 (amended): recording a successful outcome at instant `t` makes
`shouldRun` false for every instant of the same **UTC** civil day and leaves
other days untouched; recording a failed outcome never changes `shouldRun`;
with no records at all `shouldRun` is true.  The day boundary is a civil
calendar day (not a rolling 24-hour window), but it is the UTC day computed by
SQLite, not the scheduler's SAST-local day. -/
theorem runGate_utc_civil_day (logs : List RunRecord) (title : Str)
    (cnt : Nat) (t t' : Nat) :
    (shouldRun (logNewsletterSent logs title cnt true t) t'
        = (decide (utcDay t ≠ utcDay t') && shouldRun logs t'))
    ∧ (shouldRun (logNewsletterSent logs title cnt false t) t' = shouldRun logs t')
    ∧ shouldRun [] t' = true := by
  refine ⟨?_, ?_, ?_⟩
  · simp only [shouldRun, alreadyProcessedToday, logNewsletterSent,
      countP_append_single]
    by_cases h : utcDay t = utcDay t' <;> simp [h]
  · simp only [shouldRun, alreadyProcessedToday, logNewsletterSent,
      countP_append_single]
    simp
  · simp [shouldRun, alreadyProcessedToday]

/-- C1 counterexample: a successful run recorded at 23:00 UTC (= 01:00 SAST of
the next local day) and a later check at 07:00 UTC of the next UTC day
(= 09:00 SAST, the scheduled trigger time) fall on the **same** SAST civil day,
so the claim's local-civil-day gate must answer false — but the code's UTC-day
gate answers true (a second run would proceed that local day). -/
theorem runGate_local_day_counterexample :
    sastDay 1380 = sastDay 1860
    ∧ shouldRunLocalDaySpec (logNewsletterSent [] [] 5 true 1380) 1860 = false
    ∧ shouldRun (logNewsletterSent [] [] 5 true 1380) 1860 = true := by
  refine ⟨by decide, by decide, by decide⟩

/-! ## Broadcaster: `NewsletterScheduler.send_to_subscribers` and
`_deactivate_user` (claim C2) -/

/-- A row of the `subscribers` table (`user_id` is the PRIMARY KEY). -/
structure Subscriber where
  user_id : Nat
  first_name : Str
  is_active : Bool
deriving DecidableEq

/-- Outcome of one `bot.send_message` call: success, or an exception whose
`str(e)` is the given message. -/
inductive DeliveryResult where
  | ok : DeliveryResult
  | err (msg : Str) : DeliveryResult
deriving DecidableEq

/-- The scheduler's error classification: `error_msg = str(e).lower()`; the
recipient is deactivated when `'blocked' in error_msg or 'user is deactivated'
in error_msg`, or (elif) `'chat not found' in error_msg`. -/
def isDeactivatingError (msg : Str) : Bool :=
  let m := lowerStr msg
  if containsSeq ("blocked".data) m || containsSeq ("user is deactivated".data) m then
    true
  else if containsSeq ("chat not found".data) m then true
  else false

/-- `NewsletterScheduler._deactivate_user`:
`UPDATE subscribers SET is_active = FALSE WHERE user_id = ?`. -/
def deactivateUser (db : List Subscriber) (uid : Nat) : List Subscriber :=
  db.map (fun s => if s.user_id = uid then { s with is_active := false } else s)

/-- Did the delivery to subscriber `s` fail with a deactivating (permanent)
error? -/
def permFail (deliver : Nat → DeliveryResult) (s : Subscriber) : Bool :=
  match deliver s.user_id with
  | .ok => false
  | .err m => isDeactivatingError m

/-- Did the delivery to subscriber `s` succeed? -/
def deliverOk (deliver : Nat → DeliveryResult) (s : Subscriber) : Bool :=
  match deliver s.user_id with
  | .ok => true
  | .err _ => false

/-- One iteration of the broadcast loop: accumulator = (successful_sends,
subscribers table, trace of attempted user_ids). -/
def broadcastStep (deliver : Nat → DeliveryResult)
    (acc : Nat × List Subscriber × List Nat) (s : Subscriber) :
    Nat × List Subscriber × List Nat :=
  match deliver s.user_id with
  | .ok => (acc.1 + 1, acc.2.1, acc.2.2 ++ [s.user_id])
  | .err m =>
    if isDeactivatingError m then
      (acc.1, deactivateUser acc.2.1 s.user_id, acc.2.2 ++ [s.user_id])
    else (acc.1, acc.2.1, acc.2.2 ++ [s.user_id])

/-- `NewsletterScheduler.send_to_subscribers`: snapshot the active
subscribers (`SELECT ... WHERE is_active = TRUE`), attempt delivery to each in
turn, count successes, deactivate on permanent errors, never abort early.
Returns (successful_sends, updated table, attempted user_ids); the Python
function returns only the first component, the rest is its database side
effect and the send_message call trace. -/
def sendToSubscribers (deliver : Nat → DeliveryResult) (db : List Subscriber) :
    Nat × List Subscriber × List Nat :=
  let subscribers := db.filter (fun s => s.is_active)
  if subscribers.isEmpty then (0, db, [])
  else subscribers.foldl (broadcastStep deliver) (0, db, [])

theorem broadcast_count (deliver : Nat → DeliveryResult)
    (l : List Subscriber) (n : Nat) (d : List Subscriber) (a : List Nat) :
    (l.foldl (broadcastStep deliver) (n, d, a)).1
      = n + l.countP (deliverOk deliver) := by
  induction l generalizing n d a with
  | nil => simp
  | cons s t ih =>
    cases h : deliver s.user_id with
    | ok =>
      simp [List.foldl_cons, List.countP_cons, broadcastStep, deliverOk, h, ih]
      omega
    | err m =>
      by_cases hm : isDeactivatingError m <;>
        simp [List.foldl_cons, List.countP_cons, broadcastStep, deliverOk, h, hm, ih]

theorem broadcast_attempted (deliver : Nat → DeliveryResult)
    (l : List Subscriber) (n : Nat) (d : List Subscriber) (a : List Nat) :
    (l.foldl (broadcastStep deliver) (n, d, a)).2.2
      = a ++ l.map (fun s => s.user_id) := by
  induction l generalizing n d a with
  | nil => simp
  | cons s t ih =>
    cases h : deliver s.user_id with
    | ok => simp [List.foldl_cons, broadcastStep, h, ih]
    | err m =>
      by_cases hm : isDeactivatingError m <;>
        simp [List.foldl_cons, broadcastStep, h, hm, ih]

/-- Flip `is_active` off for every row whose user id is in `ids`. -/
def deactAll (db : List Subscriber) (ids : List Nat) : List Subscriber :=
  db.map (fun s => if s.user_id ∈ ids then { s with is_active := false } else s)

theorem deactAll_nil (db : List Subscriber) : deactAll db [] = db := by
  simp [deactAll]

theorem deactivateUser_as_deactAll (db : List Subscriber) (u : Nat)
    (ids : List Nat) :
    deactAll (deactivateUser db u) ids = deactAll db (u :: ids) := by
  simp only [deactAll, deactivateUser, List.map_map]
  apply List.map_congr_left
  intro s _
  by_cases h1 : s.user_id = u <;> by_cases h2 : s.user_id ∈ ids <;>
    simp [h1, h2, Function.comp]

theorem broadcast_db (deliver : Nat → DeliveryResult)
    (l : List Subscriber) (n : Nat) (d : List Subscriber) (a : List Nat) :
    (l.foldl (broadcastStep deliver) (n, d, a)).2.1
      = deactAll d ((l.filter (permFail deliver)).map (fun s => s.user_id)) := by
  induction l generalizing n d a with
  | nil => simp [deactAll_nil]
  | cons s t ih =>
    cases h : deliver s.user_id with
    | ok => simp [List.foldl_cons, broadcastStep, List.filter_cons, permFail, h, ih]
    | err m =>
      by_cases hm : isDeactivatingError m
      · simp only [List.foldl_cons, broadcastStep, List.filter_cons, permFail, h,
          hm, if_pos, List.map_cons, ih]
        rw [deactivateUser_as_deactAll]
      · simp [List.foldl_cons, broadcastStep, List.filter_cons, permFail, h, hm, ih]

theorem deliverOk_permFail_disjoint (deliver : Nat → DeliveryResult)
    (s : Subscriber) (h : deliverOk deliver s = true) :
    permFail deliver s = false := by
  unfold deliverOk at h
  unfold permFail
  cases hd : deliver s.user_id with
  | ok => rfl
  | err m => rw [hd] at h; exact absurd h (by simp)

theorem countP_ok_of_partition (deliver : Nat → DeliveryResult)
    (l : List Subscriber)
    (h : ∀ s ∈ l, deliverOk deliver s || permFail deliver s) :
    l.countP (deliverOk deliver) = l.length - l.countP (permFail deliver) := by
  induction l with
  | nil => simp
  | cons s t ih =>
    have hs := h s (List.mem_cons_self s t)
    have ht : ∀ x ∈ t, deliverOk deliver x || permFail deliver x :=
      fun x hx => h x (List.mem_cons_of_mem s hx)
    have hcount : t.countP (permFail deliver) ≤ t.length := List.countP_le_length _
    by_cases hok : deliverOk deliver s
    · have hpf := deliverOk_permFail_disjoint deliver s hok
      simp [List.countP_cons, hok, hpf, ih ht]
      omega
    · have hpf : permFail deliver s = true := by
        rcases Bool.or_eq_true_iff.mp hs with h1 | h1
        · exact absurd h1 hok
        · exact h1
      simp [List.countP_cons, hok, hpf, ih ht]

/-- C2: on a snapshot of active recipients in which every delivery either
succeeds or fails with a permanent (deactivating) error, the broadcast returns
exactly `N - K` where `K` counts the permanent failures, deactivates exactly
the permanently-failed recipients, keeps every successful recipient active and
untouched, and attempts every snapshotted recipient in order (it never aborts
early). -/
theorem broadcaster_send_exact (deliver : Nat → DeliveryResult)
    (db : List Subscriber)
    (hnodup : (db.map (fun s => s.user_id)).Nodup)
    (hclass : ∀ s ∈ db.filter (fun s => s.is_active),
      deliverOk deliver s || permFail deliver s) :
    (sendToSubscribers deliver db).1
        = (db.filter (fun s => s.is_active)).length
          - ((db.filter (fun s => s.is_active)).filter (permFail deliver)).length
    ∧ (sendToSubscribers deliver db).2.1
        = deactAll db
            (((db.filter (fun s => s.is_active)).filter (permFail deliver)).map
              (fun s => s.user_id))
    ∧ (sendToSubscribers deliver db).2.2
        = (db.filter (fun s => s.is_active)).map (fun s => s.user_id)
    ∧ (∀ s ∈ db.filter (fun s => s.is_active), permFail deliver s = true →
        { s with is_active := false } ∈ (sendToSubscribers deliver db).2.1)
    ∧ (∀ s ∈ db.filter (fun s => s.is_active), deliverOk deliver s = true →
        s ∈ (sendToSubscribers deliver db).2.1) := by
  set subs := db.filter (fun s => s.is_active) with hsubs
  have hcount := countP_ok_of_partition deliver subs hclass
  have hmain1 : (sendToSubscribers deliver db).1
      = subs.length - (subs.filter (permFail deliver)).length := by
    unfold sendToSubscribers
    rw [← hsubs]
    by_cases he : subs.isEmpty
    · rw [List.isEmpty_iff] at he
      simp [he]
    · simp only [he, if_neg, Bool.false_eq_true, not_false_iff]
      rw [broadcast_count, hcount, List.countP_eq_length_filter]
      omega
  have hmain2 : (sendToSubscribers deliver db).2.1
      = deactAll db ((subs.filter (permFail deliver)).map (fun s => s.user_id)) := by
    unfold sendToSubscribers
    rw [← hsubs]
    by_cases he : subs.isEmpty
    · rw [List.isEmpty_iff] at he
      simp [he, deactAll_nil]
    · simp only [he, if_neg, Bool.false_eq_true, not_false_iff]
      rw [broadcast_db]
  have hmain3 : (sendToSubscribers deliver db).2.2
      = subs.map (fun s => s.user_id) := by
    unfold sendToSubscribers
    rw [← hsubs]
    by_cases he : subs.isEmpty
    · rw [List.isEmpty_iff] at he
      simp [he]
    · simp only [he, if_neg, Bool.false_eq_true, not_false_iff]
      rw [broadcast_attempted]
      simp
  refine ⟨hmain1, hmain2, hmain3, ?_, ?_⟩
  · intro s hs hpf
    rw [hmain2]
    have hsdb : s ∈ db := List.mem_of_mem_filter hs
    have hid : s.user_id ∈ (subs.filter (permFail deliver)).map (fun x => x.user_id) :=
      List.mem_map_of_mem _ (List.mem_filter.mpr ⟨hs, hpf⟩)
    unfold deactAll
    exact List.mem_map.mpr ⟨s, hsdb, by simp [hid]⟩
  · intro s hs hok
    rw [hmain2]
    have hsdb : s ∈ db := List.mem_of_mem_filter hs
    have hid : s.user_id ∉ (subs.filter (permFail deliver)).map (fun x => x.user_id) := by
      intro hmem
      rcases List.mem_map.mp hmem with ⟨s', hs', heq⟩
      have hs'db : s' ∈ db := List.mem_of_mem_filter (List.mem_of_mem_filter hs')
      have : s' = s := List.inj_on_of_nodup_map hnodup hs'db hsdb heq
      subst this
      have := deliverOk_permFail_disjoint deliver s' hok
      rw [(List.mem_filter.mp hs').2] at this
      exact absurd this (by simp)
    unfold deactAll
    exact List.mem_map.mpr ⟨s, hsdb, by simp [hid]⟩

/-- C2 witness: three active subscribers; delivery to user 2 raises
"Forbidden: bot was blocked by the user"; the broadcast reaches 2 recipients,
deactivates exactly user 2, keeps users 1 and 3 active, and attempted all
three. -/
theorem broadcaster_send_exact_witness :
    ((([⟨1, ['a'], true⟩, ⟨2, ['b'], true⟩, ⟨3, ['c'], true⟩] :
        List Subscriber).map (fun s => s.user_id)).Nodup
    ∧ (sendToSubscribers
        (fun uid => if uid = 2 then
          .err ("Forbidden: bot was blocked by the user".data) else .ok)
        [⟨1, ['a'], true⟩, ⟨2, ['b'], true⟩, ⟨3, ['c'], true⟩]).1 = 2)
    ∧ (sendToSubscribers
        (fun uid => if uid = 2 then
          .err ("Forbidden: bot was blocked by the user".data) else .ok)
        [⟨1, ['a'], true⟩, ⟨2, ['b'], true⟩, ⟨3, ['c'], true⟩]).2.1
      = [⟨1, ['a'], true⟩, ⟨2, ['b'], false⟩, ⟨3, ['c'], true⟩] := by
  have h := broadcaster_send_exact
    (fun uid => if uid = 2 then
      .err ("Forbidden: bot was blocked by the user".data) else .ok)
    [⟨1, ['a'], true⟩, ⟨2, ['b'], true⟩, ⟨3, ['c'], true⟩]
    (by decide) (by decide)
  refine ⟨⟨by decide, ?_⟩, ?_⟩
  · rw [h.1]; decide
  · rw [h.2.1]; decide

/-! ## ContentNormalizer: `OpenLetterFetcher._clean_content` (claims C4, C6)

Each regex pass of `_clean_content` is embedded as a scanner with `re.sub`'s
leftmost / non-overlapping behaviour.  The boilerplate patterns run after the
whitespace collapse, so their input contains no newline and `$` means
end-of-string there. -/

/-- Split a string at its first `'>'`: `some (before, after)`. -/
def splitAtGt : Str → Option (Str × Str)
  | [] => none
  | c :: cs =>
    if c = '>' then some ([], cs)
    else (splitAtGt cs).map (fun p => (c :: p.1, p.2))

theorem splitAtGt_length {l b a : Str} (h : splitAtGt l = some (b, a)) :
    a.length < l.length := by
  induction l generalizing b a with
  | nil => simp [splitAtGt] at h
  | cons c cs ih =>
    by_cases hc : c = '>'
    · simp [splitAtGt, hc] at h
      rw [← h.2]
      simp
    · simp only [splitAtGt, hc, if_neg, if_false, Option.map_eq_some'] at h
      rcases h with ⟨⟨b', a'⟩, hsome, heq⟩
      have := ih hsome
      have ha : a = a' := by
        have := heq
        simp at this
        exact this.2.symm
      rw [ha]
      exact Nat.lt_succ_of_lt (ih hsome)

/-- `re.sub(r'<[^>]+>', '', s)`: at each `'<'`, if a later `'>'` exists with at
least one character in between, delete through that `'>'` and continue after
it; otherwise keep scanning. -/
def stripTagsAux : Nat → Str → Str
  | 0, s => s
  | _, [] => []
  | fuel + 1, c :: cs =>
    if c = '<' then
      match splitAtGt cs with
      | some (betw, after) =>
        if betw.isEmpty then c :: stripTagsAux fuel cs else stripTagsAux fuel after
      | none => c :: stripTagsAux fuel cs
    else c :: stripTagsAux fuel cs

def stripTags (s : Str) : Str := stripTagsAux s.length s

/-- `re.sub(pat + r'.*?$', '', s, flags=IGNORECASE)` on newline-free input:
cut the string at the first case-insensitive occurrence of `pat`
(`pat` is given in lowercase). -/
def truncAtCi (pat : Str) (s : Str) : Str :=
  match findOcc pat (lowerStr s) with
  | none => s
  | some i => s.take i

/-- `re.sub(r'subscribe to.*?newsletter', '', s, flags=IGNORECASE)` on
newline-free input: repeatedly delete from the leftmost case-insensitive
`"subscribe to"` through the closest following `"newsletter"` (lazy `.*?`),
continuing after the deleted span.  Fuel-driven recursion: every step consumes
at least the length of `"subscribe to"`, so `s.length` fuel is enough. -/
def removeSubscribeToAux : Nat → Str → Str
  | 0, s => s
  | fuel + 1, s =>
    match findOcc ("subscribe to".data) (lowerStr s) with
    | none => s
    | some i =>
      let rest := s.drop (i + 12)
      match findOcc ("newsletter".data) (lowerStr rest) with
      | none => s
      | some j => s.take i ++ removeSubscribeToAux fuel (rest.drop (j + 10))

def removeSubscribeTo (s : Str) : Str := removeSubscribeToAux s.length s

/-- The character class of the URL regex
`http[s]?://(?:[a-zA-Z]|[0-9]|[$-_@.&+]|[!*\\(\\),]|(?:%[0-9a-fA-F][0-9a-fA-F]))+`:
letters, digits, the `$`..`_` range (which contains `@ . & + %` and more),
and `! * \ ( ) ,`. -/
def urlChar (c : Char) : Bool :=
  c.isAlpha || c.isDigit || ('$' ≤ c && c ≤ '_') ||
  c = '!' || c = '*' || c = '\\' || c = '(' || c = ')' || c = ','

/-- Match the URL regex at the head of `s`: the literal scheme (greedy `[s]?`
first), then at least one `urlChar`, consumed greedily.  Returns the remainder
after the match. -/
def urlMatchRest (s : Str) : Option Str :=
  let sch : Option Str :=
    if startsList ("https://".data) s then some (s.drop 8)
    else if startsList ("http://".data) s then some (s.drop 7)
    else none
  match sch with
  | none => none
  | some t =>
    match t with
    | [] => none
    | c :: _ => if urlChar c then some (t.dropWhile urlChar) else none

theorem startsList_length {p s : Str} (h : startsList p s = true) :
    p.length ≤ s.length := by
  induction p generalizing s with
  | nil => simp
  | cons x xs ih =>
    cases s with
    | nil => simp [startsList] at h
    | cons c cs =>
      simp only [startsList, Bool.and_eq_true] at h
      simpa using ih h.2

theorem urlMatchRest_length {s rest : Str} (h : urlMatchRest s = some rest) :
    rest.length < s.length := by
  unfold urlMatchRest at h
  by_cases h8 : startsList ("https://".data) s
  · simp only [h8, if_pos] at h
    have hlen : 8 ≤ s.length := startsList_length h8
    rcases hd : s.drop 8 with _ | ⟨c, _⟩ <;> rw [hd] at h
    · simp at h
    · by_cases hc : urlChar c
      · simp only [hc, if_pos, Option.some_inj] at h
        have h1 : rest.length ≤ (s.drop 8).length := by
          rw [← h, hd]; exact dropWhile_length_le _ _
        have h2 : (s.drop 8).length = s.length - 8 := by simp
        omega
      · simp [hc] at h
  · by_cases h7 : startsList ("http://".data) s
    · simp only [h8, h7, if_neg, if_pos, Bool.false_eq_true, not_false_iff] at h
      have hlen : 7 ≤ s.length := startsList_length h7
      rcases hd : s.drop 7 with _ | ⟨c, _⟩ <;> rw [hd] at h
      · simp at h
      · by_cases hc : urlChar c
        · simp only [hc, if_pos, Option.some_inj] at h
          have h1 : rest.length ≤ (s.drop 7).length := by
            rw [← h, hd]; exact dropWhile_length_le _ _
          have h2 : (s.drop 7).length = s.length - 7 := by simp
          omega
        · simp [hc] at h
    · simp [h8, h7] at h

/-- `re.sub(urlRegex, '', s)`: delete every URL match, scanning left to
right.  Fuel-driven; every step consumes at least one character
(`urlMatchRest_length`), so `s.length` fuel is always enough. -/
def urlStripAux : Nat → Str → Str
  | 0, s => s
  | _, [] => []
  | fuel + 1, c :: cs =>
    match urlMatchRest (c :: cs) with
    | some rest => urlStripAux fuel rest
    | none => c :: urlStripAux fuel cs

def urlStrip (s : Str) : Str := urlStripAux s.length s

/-- Python `\w` (ASCII range): letters, digits, underscore. -/
def wordChar (c : Char) : Bool := c.isAlpha || c.isDigit || c = '_'

/-- `[A-Za-z0-9._%+-]`, the local part of the email regex. -/
def localChar (c : Char) : Bool :=
  c.isAlpha || c.isDigit || c = '.' || c = '_' || c = '%' || c = '+' || c = '-'

/-- `[A-Za-z0-9.-]`, the domain part of the email regex. -/
def domChar (c : Char) : Bool := c.isAlpha || c.isDigit || c = '.' || c = '-'

/-- `[A-Z|a-z]`, the (sloppy) top-level-domain class of the email regex —
note it contains the literal `'|'`. -/
def tldChar (c : Char) : Bool :=
  ('A' ≤ c && c ≤ 'Z') || ('a' ≤ c && c ≤ 'z') || c = '|'

/-- Word/non-word test of an optional character; `none` (string edge) counts
as non-word, so `\b` holds at an edge next to a word character. -/
def isWordOpt : Option Char → Bool
  | none => false
  | some c => wordChar c

/-- Backtracking search for the end of `\.[A-Z|a-z]{2,}\b` inside `u`
(the text after the domain dot): try the greedy length first, descending,
accepting `j ≥ 2` whose following position is a word boundary.
`t` is `u.takeWhile tldChar`. -/
def tldSearchAux (t u : Str) : Nat → Option Nat
  | 0 => none
  | j + 1 =>
    if 2 ≤ j + 1 then
      match t.get? j with
      | some last =>
        if isWordOpt (some last) ≠ isWordOpt (u.get? (j + 1)) then some (j + 1)
        else tldSearchAux t u j
      | none => tldSearchAux t u j
    else none

def tldSearch (u : Str) : Option Nat :=
  tldSearchAux (u.takeWhile tldChar) u (u.takeWhile tldChar).length

/-- Backtracking search for `[A-Za-z0-9.-]+\.[A-Z|a-z]{2,}\b` at the head of
`rest2` (the text after `'@'`): try domain lengths from the greedy maximum
down to 1; for each, require a literal `'.'` and then a successful TLD search.
Returns the total number of characters consumed from `rest2`. -/
def domSearchAux (rest2 : Str) : Nat → Option Nat
  | 0 => none
  | k + 1 =>
    match (rest2.drop (k + 1)).head? with
    | some c =>
      if c = '.' then
        match tldSearch (rest2.drop (k + 2)) with
        | some j => some (k + 2 + j)
        | none => domSearchAux rest2 k
      else domSearchAux rest2 k
    | none => domSearchAux rest2 k

def domSearch (rest2 : Str) : Option Nat :=
  domSearchAux rest2 (rest2.takeWhile domChar).length

/-- Match the email regex
`\b[A-Za-z0-9._%+-]+@[A-Za-z0-9.-]+\.[A-Z|a-z]{2,}\b` at the head of `s`,
where `prev` is the character just before `s` in the scanned string (for the
leading `\b`).  Returns the number of characters matched.  The local-part run
needs no backtracking because `'@'` is not a local character. -/
def emailMatchLen (prev : Option Char) (s : Str) : Option Nat :=
  match s with
  | [] => none
  | c :: _ =>
    if localChar c && (isWordOpt prev ≠ isWordOpt (some c)) then
      let l := s.takeWhile localChar
      match s.drop l.length with
      | a :: rest2 =>
        if a = '@' then
          match domSearch rest2 with
          | some m => some (l.length + 1 + m)
          | none => none
        else none
      | [] => none
    else none

/-- `re.sub(emailRegex, '', s)`: delete every email match, scanning left to
right; `prev` is the previous character of the scanned string (boundaries are
evaluated on the original string, as `re.sub` does). -/
def emailStripAux : Nat → Option Char → Str → Str
  | 0, _, s => s
  | _, _, [] => []
  | fuel + 1, prev, c :: cs =>
    match emailMatchLen prev (c :: cs) with
    | some (n + 1) => emailStripAux fuel ((c :: cs).get? n) (cs.drop n)
    | some 0 => c :: emailStripAux fuel (some c) cs
    | none => c :: emailStripAux fuel (some c) cs

def emailStrip (s : Str) : Str := emailStripAux s.length none s

/-- `OpenLetterFetcher._clean_content`: strip tags, collapse whitespace and
strip, remove the boilerplate patterns in source order, strip URLs and email
addresses, collapse and strip again, and truncate to 4000 characters with a
`"..."` marker. -/
def cleanContent (content : Str) : Str :=
  if content = [] then []
  else
    let c1 := stripTags content
    let c2 := pyStrip (collapseWs c1)
    let c3 := truncAtCi ("unsubscribe".data) c2
    let c4 := truncAtCi ("privacy policy".data) c3
    let c5 := truncAtCi ("terms of service".data) c4
    let c6 := truncAtCi ("copyright".data) c5
    let c7 := truncAtCi ("all rights reserved".data) c6
    let c8 := removeSubscribeTo c7
    let c9 := truncAtCi ("follow us on".data) c8
    let c10 := truncAtCi ("powered by".data) c9
    let c11 := urlStrip c10
    let c12 := emailStrip c11
    let c13 := pyStrip (collapseWs c12)
    if 4000 < c13.length then c13.take 4000 ++ "...".data else c13

/-! ## SourceChain: `NewsletterFetcher.fetch_latest_newsletter` and
`MockNewsletterFetcher` (claim C4) -/

/-- The dictionary shape every fetcher returns:
`{title, content, link, published, source}`. -/
structure ContentItem where
  title : Str
  content : Str
  link : Str
  published : Str
  source : Str
deriving DecidableEq

/-- `MockNewsletterFetcher.fetch_latest_newsletter`: the guaranteed synthetic
item (`source = 'mock'`); `published` is `datetime.now().isoformat()`, an
arbitrary timestamp string, held abstract here as a parameter. -/
def mockNewsletterItem (published : Str) : ContentItem :=
  { title := "Weekly AI Update for South African Professionals".data
    content := ("\n        Artificial Intelligence continues to transform South African businesses at an unprecedented pace. \n        This week\x27s highlights include new AI tools for small businesses, ChatGPT integration strategies, \n        and local companies achieving significant efficiency gains through automation.\n        \n        Key developments:\n        - OpenAI released new features that reduce costs by 40%\n        - Local fintech companies are implementing AI customer service\n        - Government announces R500M AI development fund\n        - New study shows 65% productivity increase in AI-adopting SMEs\n        \n        Practical applications for South African businesses include customer service automation, \n        content creation tools, and data analysis platforms that provide immediate ROI.\n        ").data
    link := "https://example.com/mock-newsletter".data
    published := published
    source := "mock".data }

/-- The acceptance check of `NewsletterFetcher.fetch_latest_newsletter`:
`content and content['content'] and len(content['content']) > 100`. -/
def usableContent (c : ContentItem) : Bool :=
  !c.content.isEmpty && 100 < c.content.length

/-- `NewsletterFetcher.fetch_latest_newsletter`: try each fetcher in priority
order (a fetcher that raises or returns nothing is `none`), accept the first
result whose content is non-empty and strictly longer than 100 characters, and
fall back to the mock item when every fetcher fails. -/
def fetchLatestNewsletter (published : Str) :
    List (Option ContentItem) → ContentItem
  | [] => mockNewsletterItem published
  | none :: rest => fetchLatestNewsletter published rest
  | some c :: rest =>
    if usableContent c then c else fetchLatestNewsletter published rest

/-- Modelled from the spec's words, for comparison with the code: acceptance
at "body length at least the configured minimum (default 100)", i.e. `≥ 100`
rather than the code's `> 100`. -/
def fetchBestAtLeastSpec (published : Str) :
    List (Option ContentItem) → ContentItem
  | [] => mockNewsletterItem published
  | none :: rest => fetchBestAtLeastSpec published rest
  | some c :: rest =>
    if !c.content.isEmpty && 100 ≤ c.content.length then c
    else fetchBestAtLeastSpec published rest

theorem mock_content_long (published : Str) :
    100 < (mockNewsletterItem published).content.length := by
  simp only [mockNewsletterItem]
  decide

/-- C4 (amended): the chain always returns an item whose body is strictly
longer than 100 characters (hence at least the 100-character minimum); it is
exactly the first adapter result passing the strict `> 100` check, and the
synthetic mock item when no adapter passes; in the scenario
[A: timeout, B: 40-char body, C: 500-char body] it selects C's output. -/
theorem sourceChain_fetchBest (published : Str)
    (results : List (Option ContentItem)) (b40 c500 : ContentItem)
    (hb : b40.content.length = 40) (hc : c500.content.length = 500) :
    100 < (fetchLatestNewsletter published results).content.length
    ∧ (fetchLatestNewsletter published results
        = match results.findSome?
            (fun o => o.bind (fun c => if usableContent c then some c else none)) with
          | some c => c
          | none => mockNewsletterItem published)
    ∧ fetchLatestNewsletter published [none, some b40, some c500] = c500 := by
  refine ⟨?_, ?_, ?_⟩
  · induction results with
    | nil => exact mock_content_long published
    | cons o rest ih =>
      cases o with
      | none => simpa [fetchLatestNewsletter] using ih
      | some c =>
        by_cases hu : usableContent c
        · have : 100 < c.content.length := by
            unfold usableContent at hu
            exact of_decide_eq_true (Bool.and_eq_true_iff.mp hu).2
          simpa [fetchLatestNewsletter, hu] using this
        · simpa [fetchLatestNewsletter, hu] using ih
  · induction results with
    | nil => simp [fetchLatestNewsletter, List.findSome?]
    | cons o rest ih =>
      cases o with
      | none => simpa [fetchLatestNewsletter, List.findSome?] using ih
      | some c =>
        by_cases hu : usableContent c
        · simp [fetchLatestNewsletter, List.findSome?, hu]
        · simpa [fetchLatestNewsletter, List.findSome?, hu] using ih
  · have hub : usableContent b40 = false := by
      unfold usableContent
      rw [hb]
      simp
    have huc : usableContent c500 = true := by
      unfold usableContent
      rw [hc]
      have : ¬c500.content.isEmpty := by
        intro he
        rw [List.isEmpty_iff] at he
        rw [he] at hc
        simp at hc
      simp [this]
    simp [fetchLatestNewsletter, hub, huc]

/-- C4 witness: instantiate the scenario with concrete 40- and 500-character
bodies. -/
theorem sourceChain_fetchBest_witness :
    (({ title := ['b'], content := List.replicate 40 'x', link := [],
        published := [], source := "rss".data } : ContentItem).content.length = 40)
    ∧ fetchLatestNewsletter []
        [none,
         some { title := ['b'], content := List.replicate 40 'x', link := [],
                published := [], source := "rss".data },
         some { title := ['c'], content := List.replicate 500 'y', link := [],
                published := [], source := "web_scraping".data }]
      = { title := ['c'], content := List.replicate 500 'y', link := [],
          published := [], source := "web_scraping".data } := by
  refine ⟨by decide, ?_⟩
  exact (sourceChain_fetchBest []
    [none,
     some { title := ['b'], content := List.replicate 40 'x', link := [],
            published := [], source := "rss".data },
     some { title := ['c'], content := List.replicate 500 'y', link := [],
            published := [], source := "web_scraping".data }]
    { title := ['b'], content := List.replicate 40 'x', link := [],
      published := [], source := "rss".data }
    { title := ['c'], content := List.replicate 500 'y', link := [],
      published := [], source := "web_scraping".data }
    (by decide) (by decide)).2.2

/-- C4 counterexample: an adapter body of exactly 100 characters passes the
claim's "at least 100" acceptance but is rejected by the code's strict
`> 100` check — the code returns the second adapter's item, the claim's rule
the first. -/
theorem sourceChain_boundary_counterexample :
    (({ title := ['a'], content := List.replicate 100 'x', link := [],
        published := [], source := "rss".data } : ContentItem).content.length = 100)
    ∧ fetchBestAtLeastSpec []
        [some { title := ['a'], content := List.replicate 100 'x', link := [],
                published := [], source := "rss".data },
         some { title := ['c'], content := List.replicate 500 'y', link := [],
                published := [], source := "web_scraping".data }]
      = { title := ['a'], content := List.replicate 100 'x', link := [],
          published := [], source := "rss".data }
    ∧ fetchLatestNewsletter []
        [some { title := ['a'], content := List.replicate 100 'x', link := [],
                published := [], source := "rss".data },
         some { title := ['c'], content := List.replicate 500 'y', link := [],
                published := [], source := "web_scraping".data }]
      = { title := ['c'], content := List.replicate 500 'y', link := [],
          published := [], source := "web_scraping".data } := by
  refine ⟨by decide, by decide, by decide⟩

/-! ## Idempotence machinery for `cleanContent` (claim C6) -/

theorem dropWhile_head_not (p : Char → Bool) (l : Str) :
    ∀ c, (l.dropWhile p).head? = some c → p c = false := by
  induction l with
  | nil => intro c h; simp [List.dropWhile] at h
  | cons a as ih =>
    intro c h
    by_cases ha : p a
    · rw [List.dropWhile_cons_of_pos ha] at h
      exact ih c h
    · rw [List.dropWhile_cons_of_neg ha] at h
      simp at h
      rw [← h]
      exact Bool.eq_false_iff.mpr ha

theorem dropWhile_eq_self_of_head (p : Char → Bool) (l : Str)
    (h : ∀ c, l.head? = some c → p c = false) : l.dropWhile p = l := by
  cases l with
  | nil => rfl
  | cons a as =>
    have := h a rfl
    rw [List.dropWhile_cons_of_neg (by simp [this])]

theorem stripTagsAux_id (fuel : Nat) (s : Str) (h : '<' ∉ s) :
    stripTagsAux fuel s = s := by
  induction fuel generalizing s with
  | zero => cases s <;> rfl
  | succ f ih =>
    cases s with
    | nil => rfl
    | cons c cs =>
      have hc : c ≠ '<' := fun he => h (he ▸ List.mem_cons_self c cs)
      have hcs : '<' ∉ cs := fun hm => h (List.mem_cons_of_mem c hm)
      rw [stripTagsAux, if_neg hc, ih cs hcs]

theorem stripTags_id (s : Str) (h : '<' ∉ s) : stripTags s = s :=
  stripTagsAux_id s.length s h

theorem findOcc_eq_none (pat l : Str) (h : containsSeq pat l = false) :
    findOcc pat l = none := by
  induction l with
  | nil =>
    unfold containsSeq at h
    unfold findOcc
    simp only [h]
    rfl
  | cons c cs ih =>
    unfold containsSeq at h
    rw [Bool.or_eq_false_iff] at h
    unfold findOcc
    rw [h.1, if_neg (by simp), ih h.2]
    rfl

theorem truncAtCi_id (pat s : Str)
    (h : containsSeq pat (lowerStr s) = false) : truncAtCi pat s = s := by
  unfold truncAtCi
  rw [findOcc_eq_none _ _ h]

theorem removeSubscribeToAux_id (fuel : Nat) (s : Str)
    (h : containsSeq ("subscribe to".data) (lowerStr s) = false) :
    removeSubscribeToAux fuel s = s := by
  cases fuel with
  | zero => rfl
  | succ f =>
    unfold removeSubscribeToAux
    rw [findOcc_eq_none _ _ h]

theorem removeSubscribeTo_id (s : Str)
    (h : containsSeq ("subscribe to".data) (lowerStr s) = false) :
    removeSubscribeTo s = s := removeSubscribeToAux_id _ s h

theorem startsList_append_left (p q s : Str)
    (h : startsList (p ++ q) s = true) : startsList p s = true := by
  induction p generalizing s with
  | nil => rfl
  | cons x xs ih =>
    cases s with
    | nil => simp [startsList] at h
    | cons c cs =>
      simp only [List.cons_append, startsList, Bool.and_eq_true] at h ⊢
      exact ⟨h.1, ih cs h.2⟩

theorem urlMatchRest_requires_http (s : Str)
    (h : startsList ("http".data) s = false) : urlMatchRest s = none := by
  unfold urlMatchRest
  have h8 : startsList ("https://".data) s = false := by
    by_contra hc
    rw [Bool.not_eq_false] at hc
    have := startsList_append_left ("http".data) ("s://".data) s hc
    rw [h] at this
    exact absurd this (by simp)
  have h7 : startsList ("http://".data) s = false := by
    by_contra hc
    rw [Bool.not_eq_false] at hc
    have := startsList_append_left ("http".data) ("://".data) s hc
    rw [h] at this
    exact absurd this (by simp)
  simp [h8, h7]

theorem urlStripAux_id (fuel : Nat) (s : Str)
    (h : containsSeq ("http".data) s = false) : urlStripAux fuel s = s := by
  induction fuel generalizing s with
  | zero => cases s <;> rfl
  | succ f ih =>
    cases s with
    | nil => rfl
    | cons c cs =>
      unfold containsSeq at h
      rw [Bool.or_eq_false_iff] at h
      rw [urlStripAux, urlMatchRest_requires_http _ h.1, ih cs h.2]

theorem urlStrip_id (s : Str) (h : containsSeq ("http".data) s = false) :
    urlStrip s = s := urlStripAux_id s.length s h

theorem emailMatchLen_requires_at (prev : Option Char) (s : Str)
    (h : '@' ∉ s) : emailMatchLen prev s = none := by
  cases s with
  | nil => rfl
  | cons c cs =>
    simp only [emailMatchLen]
    by_cases hb : (localChar c && decide (isWordOpt prev ≠ isWordOpt (some c))) = true
    · rw [if_pos hb]
      rcases hd : (c :: cs).drop ((c :: cs).takeWhile localChar).length with _ | ⟨a, rest2⟩
      · simp [hd]
      · have ha : a ∈ (c :: cs) := by
          have : a ∈ (c :: cs).drop ((c :: cs).takeWhile localChar).length := by
            rw [hd]; exact List.mem_cons_self a rest2
          exact List.drop_subset _ _ this
        have hne : a ≠ '@' := fun he => h (he ▸ ha)
        simp [hd, hne]
    · rw [if_neg hb]

theorem emailStripAux_id (fuel : Nat) (prev : Option Char) (s : Str)
    (h : '@' ∉ s) : emailStripAux fuel prev s = s := by
  induction fuel generalizing prev s with
  | zero => cases s <;> rfl
  | succ f ih =>
    cases s with
    | nil => rfl
    | cons c cs =>
      have hcs : '@' ∉ cs := fun hm => h (List.mem_cons_of_mem c hm)
      rw [emailStripAux, emailMatchLen_requires_at prev (c :: cs) h,
        ih (some c) cs hcs]

theorem emailStrip_id (s : Str) (h : '@' ∉ s) : emailStrip s = s :=
  emailStripAux_id s.length none s h

/-- No two adjacent spaces. -/
def noTwoSpaces (y : Str) : Prop :=
  List.Chain' (fun a b => ¬(a = ' ' ∧ b = ' ')) y

/-- Every whitespace character is a plain space. -/
def allWsIsSpace (y : Str) : Prop := ∀ c ∈ y, isPySpace c = true → c = ' '

/-- The normal form produced by collapse-and-strip: only plain spaces, never
doubled, and none at either end. -/
def wsCanon (y : Str) : Prop :=
  allWsIsSpace y ∧ noTwoSpaces y
  ∧ (∀ c, y.head? = some c → isPySpace c = false)
  ∧ (∀ c, y.getLast? = some c → isPySpace c = false)

set_option maxHeartbeats 2000000 in
theorem collapseWsAux_allWs (b : Bool) (s : Str) :
    allWsIsSpace (collapseWsAux b s) := by
  induction s generalizing b with
  | nil => intro c hc; exact absurd hc (List.not_mem_nil c)
  | cons c cs ih =>
    intro d hd hws'
    by_cases hc : isPySpace c
    · cases b with
      | true =>
        rw [collapseWsAux, if_pos hc, if_pos rfl] at hd
        exact ih true d hd hws'
      | false =>
        rw [collapseWsAux, if_pos hc, if_neg (by simp)] at hd
        rcases List.mem_cons.mp hd with h | h
        · exact h
        · exact ih true d h hws'
    · rw [collapseWsAux, if_neg hc] at hd
      rcases List.mem_cons.mp hd with h | h
      · exact absurd (h ▸ hws') (by simpa using hc)
      · exact ih false d h hws'

theorem collapseWs_allWs (s : Str) : allWsIsSpace (collapseWs s) :=
  collapseWsAux_allWs false s

theorem collapseWsAux_true_head (s : Str) :
    ∀ d, (collapseWsAux true s).head? = some d → isPySpace d = false := by
  induction s with
  | nil => intro d hd; simp [collapseWsAux] at hd
  | cons c cs ih =>
    intro d hd
    by_cases hc : isPySpace c
    · rw [collapseWsAux, if_pos hc, if_pos rfl] at hd
      exact ih d hd
    · rw [collapseWsAux, if_neg hc] at hd
      simp at hd
      rw [← hd]
      exact Bool.eq_false_iff.mpr hc

theorem collapseWsAux_noTwo (b : Bool) (s : Str) :
    noTwoSpaces (collapseWsAux b s) := by
  induction s generalizing b with
  | nil => exact List.chain'_nil
  | cons c cs ih =>
    by_cases hc : isPySpace c
    · cases b with
      | true =>
        rw [noTwoSpaces, collapseWsAux, if_pos hc, if_pos rfl]
        exact ih true
      | false =>
        rw [noTwoSpaces, collapseWsAux, if_pos hc, if_neg (by simp)]
        refine List.chain'_cons'.mpr ⟨?_, ih true⟩
        intro y hy ⟨_, hy'⟩
        have := collapseWsAux_true_head cs y hy
        rw [hy'] at this
        simp [isPySpace] at this
    · rw [noTwoSpaces, collapseWsAux, if_neg hc]
      refine List.chain'_cons'.mpr ⟨?_, ih false⟩
      intro y _ ⟨hcs, _⟩
      exact hc (by simp [hcs, isPySpace])

theorem collapseWs_noTwo (s : Str) : noTwoSpaces (collapseWs s) :=
  collapseWsAux_noTwo false s

theorem collapseWsAux_true_eq_false (s : Str)
    (h : ∀ d, s.head? = some d → isPySpace d = false) :
    collapseWsAux true s = collapseWsAux false s := by
  cases s with
  | nil => rfl
  | cons c cs =>
    have := h c rfl
    rw [collapseWsAux, collapseWsAux, if_neg (by simp [this]),
      if_neg (by simp [this])]

theorem collapseWs_id_of (y : Str) (h1 : allWsIsSpace y) (h2 : noTwoSpaces y) :
    collapseWs y = y := by
  unfold collapseWs
  induction y with
  | nil => rfl
  | cons c cs ih =>
    have h1cs : allWsIsSpace cs := fun d hd => h1 d (List.mem_cons_of_mem c hd)
    have h2cs : noTwoSpaces cs := (List.chain'_cons'.mp h2).2
    by_cases hws : isPySpace c
    · have hcsp : c = ' ' := h1 c (List.mem_cons_self c cs) hws
      have hhead : ∀ e, cs.head? = some e → isPySpace e = false := by
        intro e he
        have hne : ¬(c = ' ' ∧ e = ' ') := (List.chain'_cons'.mp h2).1 e he
        by_contra hcon
        rw [Bool.not_eq_false] at hcon
        have : e = ' ' := h1 e (List.mem_cons_of_mem c (List.mem_of_mem_head? he)) hcon
        exact hne ⟨hcsp, this⟩
      rw [collapseWsAux, if_pos hws, if_neg (by simp),
        collapseWsAux_true_eq_false cs hhead, ih h1cs h2cs, hcsp]
    · rw [collapseWsAux, if_neg hws, ih h1cs h2cs]

theorem pyStrip_id_of (y : Str)
    (h3 : ∀ c, y.head? = some c → isPySpace c = false)
    (h4 : ∀ c, y.getLast? = some c → isPySpace c = false) :
    pyStrip y = y := by
  unfold pyStrip
  rw [dropWhile_eq_self_of_head _ _ h3]
  rw [dropWhile_eq_self_of_head _ _ (fun c hc => h4 c (by rwa [List.head?_reverse] at hc))]
  exact List.reverse_reverse y

theorem wsCanon_nil : wsCanon [] := by
  refine ⟨fun c hc => absurd hc (List.not_mem_nil c), List.chain'_nil, ?_, ?_⟩
  · intro c hc; simp at hc
  · intro c hc; simp at hc

theorem wsCanon_trunc (y : Str) (hc : wsCanon y) (hlen : 4000 < y.length) :
    wsCanon (y.take 4000 ++ "...".data) := by
  obtain ⟨h1, h2, h3, _⟩ := hc
  have hy : y ≠ [] := by
    intro he
    rw [he] at hlen
    simp at hlen
  refine ⟨?_, ?_, ?_, ?_⟩
  · intro c hmem hws
    rcases List.mem_append.mp hmem with h | h
    · exact h1 c (List.take_subset 4000 y h) hws
    · have hdot : c = '.' := by
        have h' : c ∈ ['.', '.', '.'] := h
        rcases List.mem_cons.mp h' with h1 | h1
        · exact h1
        rcases List.mem_cons.mp h1 with h2 | h2
        · exact h2
        rcases List.mem_cons.mp h2 with h3 | h3
        · exact h3
        · exact absurd h3 (List.not_mem_nil c)
      rw [hdot] at hws
      simp [isPySpace] at hws
  · refine List.chain'_append.mpr ⟨h2.take 4000, ?_, ?_⟩
    · refine List.chain'_cons'.mpr ⟨?_, List.chain'_cons'.mpr ⟨?_, List.chain'_singleton '.'⟩⟩
      · intro b hb ⟨hdot, _⟩
        simp [String.data] at hdot
      · intro b hb ⟨hdot, _⟩
        simp [String.data] at hdot
    · intro a _ b hb ⟨_, hbs⟩
      have hbd : b = '.' := by
        have hh : ("...".data).head? = some '.' := rfl
        rw [hh] at hb
        exact (Option.mem_some_iff.mp hb).symm
      rw [hbd] at hbs
      simp at hbs
  · intro c hcc
    cases y with
    | nil => exact absurd rfl hy
    | cons a t =>
      have : ((a :: t).take 4000 ++ "...".data).head? = some a := by
        rw [List.take_cons_succ]
        rfl
      rw [this] at hcc
      have ha := h3 a rfl
      simpa using (Option.some_inj.mp hcc) ▸ ha
  · intro c hcc
    rw [List.getLast?_append_of_ne_nil _ (by simp)] at hcc
    have : ("...".data).getLast? = some '.' := rfl
    rw [this] at hcc
    have hcd : c = '.' := by
      have := Option.some_inj.mp hcc
      exact this.symm
    rw [hcd]
    simp [isPySpace]

theorem chain_symm_reverse (l : Str)
    (h : List.Chain' (fun a b => ¬(a = ' ' ∧ b = ' ')) l) :
    List.Chain' (fun a b => ¬(a = ' ' ∧ b = ' ')) l.reverse := by
  rw [List.chain'_reverse]
  exact List.Chain'.imp (fun a b hab ⟨h1, h2⟩ => hab ⟨h2, h1⟩) h

theorem mem_pyStrip {c : Char} {w : Str} (h : c ∈ pyStrip w) : c ∈ w := by
  unfold pyStrip at h
  rw [List.mem_reverse] at h
  have h1 := (List.dropWhile_suffix isPySpace).subset h
  rw [List.mem_reverse] at h1
  exact (List.dropWhile_suffix isPySpace).subset h1

theorem pyStrip_wsCanon (w : Str) (h1 : allWsIsSpace w) (h2 : noTwoSpaces w) :
    wsCanon (pyStrip w) := by
  refine ⟨fun c hc => h1 c (mem_pyStrip hc), ?_, ?_, ?_⟩
  · unfold pyStrip
    apply chain_symm_reverse
    exact ((chain_symm_reverse _ (h2.suffix (List.dropWhile_suffix isPySpace))).suffix
      (List.dropWhile_suffix isPySpace))
  · intro c hc
    unfold pyStrip at hc
    rw [List.head?_reverse] at hc
    have hne : (w.dropWhile isPySpace).reverse.dropWhile isPySpace ≠ [] := by
      intro he
      rw [he] at hc
      simp at hc
    rcases (List.dropWhile_suffix isPySpace
        (l := (w.dropWhile isPySpace).reverse)) with ⟨t, ht⟩
    have : ((w.dropWhile isPySpace).reverse).getLast? = some c := by
      rw [← ht, List.getLast?_append_of_ne_nil t hne, hc]
    rw [List.getLast?_reverse] at this
    exact dropWhile_head_not isPySpace w c this
  · intro c hc
    unfold pyStrip at hc
    rw [List.getLast?_reverse] at hc
    exact dropWhile_head_not isPySpace _ c hc

theorem collapse_strip_trunc_wsCanon (z : Str) :
    wsCanon (if 4000 < (pyStrip (collapseWs z)).length
             then (pyStrip (collapseWs z)).take 4000 ++ "...".data
             else pyStrip (collapseWs z)) := by
  have hcanon : wsCanon (pyStrip (collapseWs z)) :=
    pyStrip_wsCanon (collapseWs z) (collapseWs_allWs z) (collapseWs_noTwo z)
  by_cases hlen : 4000 < (pyStrip (collapseWs z)).length
  · rw [if_pos hlen]
    exact wsCanon_trunc _ hcanon hlen
  · rw [if_neg hlen]
    exact hcanon

/-- The output of `cleanContent` is whitespace-canonical. -/
theorem cleanContent_wsCanon (x : Str) : wsCanon (cleanContent x) := by
  unfold cleanContent
  by_cases hx : x = []
  · rw [if_pos hx]
    exact wsCanon_nil
  · rw [if_neg hx]
    exact collapse_strip_trunc_wsCanon _

/-- The eight boilerplate key phrases of `_clean_content`, in lowercase. -/
def boilerKeys : List Str :=
  [("unsubscribe".data), ("privacy policy".data), ("terms of service".data),
   ("copyright".data), ("all rights reserved".data), ("subscribe to".data),
   ("follow us on".data), ("powered by".data)]

/-- A whitespace-canonical string of length at most 4000 with no residual
removable pattern is a fixed point of `cleanContent`. -/
theorem cleanContent_fixpoint (y : Str) (hc : wsCanon y) (hlt : '<' ∉ y)
    (hb : ∀ pat ∈ boilerKeys, containsSeq pat (lowerStr y) = false)
    (hhttp : containsSeq ("http".data) y = false) (hat : '@' ∉ y)
    (hlen : y.length ≤ 4000) :
    cleanContent y = y := by
  unfold cleanContent
  by_cases hy : y = []
  · rw [if_pos hy, hy]
  · rw [if_neg hy]
    obtain ⟨h1, h2, h3, h4⟩ := hc
    have e1 : stripTags y = y := stripTags_id y hlt
    have e2 : collapseWs y = y := collapseWs_id_of y h1 h2
    have e3 : pyStrip y = y := pyStrip_id_of y h3 h4
    have t1 : truncAtCi ("unsubscribe".data) y = y :=
      truncAtCi_id _ y (hb _ (by simp [boilerKeys]))
    have t2 : truncAtCi ("privacy policy".data) y = y :=
      truncAtCi_id _ y (hb _ (by simp [boilerKeys]))
    have t3 : truncAtCi ("terms of service".data) y = y :=
      truncAtCi_id _ y (hb _ (by simp [boilerKeys]))
    have t4 : truncAtCi ("copyright".data) y = y :=
      truncAtCi_id _ y (hb _ (by simp [boilerKeys]))
    have t5 : truncAtCi ("all rights reserved".data) y = y :=
      truncAtCi_id _ y (hb _ (by simp [boilerKeys]))
    have t6 : removeSubscribeTo y = y :=
      removeSubscribeTo_id y (hb _ (by simp [boilerKeys]))
    have t7 : truncAtCi ("follow us on".data) y = y :=
      truncAtCi_id _ y (hb _ (by simp [boilerKeys]))
    have t8 : truncAtCi ("powered by".data) y = y :=
      truncAtCi_id _ y (hb _ (by simp [boilerKeys]))
    have e4 : urlStrip y = y := urlStrip_id y hhttp
    have e5 : emailStrip y = y := emailStrip_id y hat
    simp only [e1, e2, e3, t1, t2, t3, t4, t5, t6, t7, t8, e4, e5]
    rw [if_neg (by omega)]

/-- C6 (amended): `clean` is a pure function of its input, and
`clean (clean x) = clean x` holds whenever the cleaned text contains no
residual removable pattern — no `'<'`, none of the eight boilerplate key
phrases (case-insensitively), no `"http"`, no `'@'` — and does not reach the
4000-character truncation boundary.  (In general one removal can splice a new
boilerplate occurrence together, so unconditional idempotence fails; see the
counterexample.) -/
theorem contentNormalizer_clean_idempotent_conditional (x : Str)
    (h1 : '<' ∉ cleanContent x)
    (h2 : ∀ pat ∈ boilerKeys, containsSeq pat (lowerStr (cleanContent x)) = false)
    (h3 : containsSeq ("http".data) (cleanContent x) = false)
    (h4 : '@' ∉ cleanContent x)
    (h5 : (cleanContent x).length ≤ 4000) :
    cleanContent (cleanContent x) = cleanContent x :=
  cleanContent_fixpoint (cleanContent x) (cleanContent_wsCanon x) h1 h2 h3 h4 h5

/-- C6 witness: a concrete input with markup and extra whitespace whose
cleaned form has no removable pattern left, so cleaning is idempotent on it. -/
theorem contentNormalizer_clean_idempotent_witness :
    cleanContent (cleanContent ("  Hello <b>world</b>   and   more text here.  ".data))
      = cleanContent ("  Hello <b>world</b>   and   more text here.  ".data) :=
  contentNormalizer_clean_idempotent_conditional
    ("  Hello <b>world</b>   and   more text here.  ".data)
    (by decide) (by decide) (by decide) (by decide) (by decide)

/-- C6 counterexample: removing the span `subscribe to … newsletter` from
`"A unsubsubscribe to X newsletterscribe everything B"` splices the pieces
`"unsub"` and `"scribe …"` into a fresh `"unsubscribe"`, which only the second
cleaning pass removes: `clean` is not idempotent below the truncation
boundary. -/
theorem contentNormalizer_clean_not_idempotent :
    cleanContent ("A unsubsubscribe to X newsletterscribe everything B".data)
        = ("A unsubscribe everything B".data)
    ∧ cleanContent (cleanContent
        ("A unsubsubscribe to X newsletterscribe everything B".data))
        = ("A".data)
    ∧ cleanContent (cleanContent
        ("A unsubsubscribe to X newsletterscribe everything B".data))
      ≠ cleanContent ("A unsubsubscribe to X newsletterscribe everything B".data) := by
  refine ⟨by decide, by decide, by decide⟩

/-! ## SummaryGenerator: `NewsletterSummarizer.summarize_newsletter`,
`_format_summary` and `_create_fallback_summary` (claims C3, C5, C7) -/

/-- `"🤖 **AI Newsletter Summary**\n\n"`, the fixed header. -/
def headerA : Str := "🤖 **AI Newsletter Summary**\n\n".data

/-- The fixed footer (without its leading blank line). -/
def footerF : Str :=
  "🇿🇦 *Curated for South African professionals*\n⚡ *Powered by AI Newsletter Bot SA*".data

/-- Python `s[:n]` for a possibly negative `n`. -/
def pySliceTo (s : Str) (n : Int) : Str :=
  s.take (if n < 0 then ((s.length : Int) + n).toNat else n.toNat)

/-- The bullet clean-up of `_format_summary`:
`strip`, then `replace('•','•')`, `replace('- ','• ')`, `replace('* ','• ')`. -/
def replacedSummary (summary : Str) : Str :=
  pyReplace '*' [' '] ("• ".data)
    (pyReplace '-' [' '] ("• ".data)
      (pyReplace '•' [] ("•".data) (pyStrip summary)))

/-- The title line of the first build: `if title and title.strip():`. -/
def titleBlockFirst (title : Str) : Str :=
  if title ≠ [] ∧ pyStrip title ≠ [] then
    ("📰 **".data) ++ pyStrip title ++ ("**\n\n".data)
  else []

/-- The title line of the truncated rebuild: `if title:`. -/
def titleBlockTrunc (title : Str) : Str :=
  if title ≠ [] then ("📰 **".data) ++ pyStrip title ++ ("**\n\n".data) else []

/-- `available_length = 4000 - header_length - footer_length` (an `Int`:
for very long titles it goes negative, which Python then uses as a negative
slice bound). -/
def availableLength (title : Str) : Int :=
  4000 - ((("🤖 **AI Newsletter Summary**\n\n📰 **".data).length : Int)
            + title.length + (("**\n\n".data).length : Int))
       - (((("\n\n".data) ++ footerF).length : Int))

/-- `NewsletterSummarizer._format_summary`. -/
def formatSummary (summary title : Str) : Str :=
  if 4000 < (headerA ++ titleBlockFirst title ++ replacedSummary summary
      ++ ("\n\n".data) ++ footerF).length then
    headerA ++ titleBlockTrunc title
      ++ (pySliceTo (replacedSummary summary) (availableLength title) ++ ("...".data))
      ++ ("\n\n".data) ++ footerF
  else
    headerA ++ titleBlockFirst title ++ replacedSummary summary
      ++ ("\n\n".data) ++ footerF

/-- The keyword list of `_create_fallback_summary`. -/
def fallbackKeywords : List Str :=
  [("AI".data), ("artificial intelligence".data), ("business".data),
   ("tool".data), ("cost".data), ("efficiency".data), ("automation".data),
   ("productivity".data)]

/-- The keyword-bearing sentences: scan the first 10 dot-separated sentences,
keep stripped sentences longer than 20 characters containing a keyword
(case-insensitively), stop after 3. -/
def keySentences (content : Str) : List Str :=
  ((splitDot content).take 10).foldl
    (fun acc sen =>
      if 3 ≤ acc.length then acc
      else
        let s := pyStrip sen
        if 20 < s.length
            ∧ fallbackKeywords.any (fun k => containsSeq (lowerStr k) (lowerStr s))
        then acc ++ [s ++ ['.']]
        else acc)
    []

/-- The fixed generic template used when no sentence matches a keyword. -/
def genericFallback : Str :=
  "\n• AI technologies continue to evolve rapidly with new tools and applications\n• South African businesses can benefit from adopting AI solutions for efficiency\n• Key areas include automation, customer service, and data analysis\n• Consider starting with simple, cost-effective AI tools for immediate impact\n\n💡 **Key Takeaway:** Explore AI tools that match your business size and budget for quick wins.\n            ".data

/-- `"\n".join("• " + s for s in sentences)`. -/
def bulletJoin : List Str → Str
  | [] => []
  | [s] => ("• ".data) ++ s
  | s :: rest => ("• ".data) ++ s ++ ['\n'] ++ bulletJoin rest

/-- The takeaway appended after extracted sentences. -/
def keyTakeawayTail : Str :=
  "\n\n💡 **Key Takeaway:** Evaluate these AI developments for potential application in your South African business context.".data

/-- `NewsletterSummarizer._create_fallback_summary`. -/
def createFallbackSummary (content title : Str) : Str :=
  formatSummary
    (if keySentences content = [] then genericFallback
     else bulletJoin (keySentences content) ++ keyTakeawayTail)
    (if title = [] then ("AI Newsletter Update".data) else title)

/-- One response of the external summarization dependency:
`response.choices[0].message.content`, `openai.RateLimitError`,
`openai.APIError`, or any other exception. -/
inductive ApiOutcome where
  | success (text : Str)
  | rateLimit
  | apiError
  | otherExc
deriving DecidableEq

/-- The retry loop of `summarize_newsletter`: `attempt` is the current index,
the second argument the number of attempts left (`max_retries - attempt`).
Returns the result and the trace of `time.sleep` durations (seconds).
An exhausted loop (`0` attempts left) falls off the `for` and the
function returns `None`. -/
def summarizeLoop (oracle : Nat → ApiOutcome) (content title : Str) :
    Nat → Nat → Option Str × List Nat
  | _, 0 => (none, [])
  | attempt, r + 1 =>
    match oracle attempt with
    | .success text =>
      if pyStrip text ≠ [] ∧ 50 < (pyStrip text).length then
        (some (formatSummary (pyStrip text) title), [])
      else (some (createFallbackSummary content title), [])
    | .rateLimit =>
      if r = 0 then (some (createFallbackSummary content title), [])
      else
        ((summarizeLoop oracle content title (attempt + 1) r).1,
         2 ^ attempt :: (summarizeLoop oracle content title (attempt + 1) r).2)
    | .apiError =>
      if r = 0 then (some (createFallbackSummary content title), [])
      else
        ((summarizeLoop oracle content title (attempt + 1) r).1,
         1 :: (summarizeLoop oracle content title (attempt + 1) r).2)
    | .otherExc =>
      if r = 0 then (some (createFallbackSummary content title), [])
      else
        ((summarizeLoop oracle content title (attempt + 1) r).1,
         1 :: (summarizeLoop oracle content title (attempt + 1) r).2)

/-- `self.max_retries = 3`. -/
def maxRetries : Nat := 3

/-- `NewsletterSummarizer.summarize_newsletter`: reject empty or sub-50
stripped content with `None`; otherwise run the bounded retry loop. -/
def summarizeNewsletter (oracle : Nat → ApiOutcome) (content title : Str) :
    Option Str × List Nat :=
  if content = [] ∨ (pyStrip content).length < 50 then (none, [])
  else summarizeLoop oracle content title 0 maxRetries

theorem headerA_length : headerA.length = 29 := by decide

theorem formatSummary_length_pos (s t : Str) : 0 < (formatSummary s t).length := by
  unfold formatSummary
  by_cases hif : 4000 < (headerA ++ titleBlockFirst t ++ replacedSummary s
      ++ ("\n\n".data) ++ footerF).length
  · rw [if_pos hif]
    simp [List.length_append, headerA_length]
  · rw [if_neg hif]
    simp [List.length_append, headerA_length]

theorem createFallbackSummary_length_pos (content title : Str) :
    0 < (createFallbackSummary content title).length := by
  unfold createFallbackSummary
  exact formatSummary_length_pos _ _

theorem summarizeLoop_step (oracle : Nat → ApiOutcome) (content title : Str)
    (a r : Nat) :
    summarizeLoop oracle content title a (r + 1)
      = match oracle a with
        | .success text =>
          if pyStrip text ≠ [] ∧ 50 < (pyStrip text).length then
            (some (formatSummary (pyStrip text) title), [])
          else (some (createFallbackSummary content title), [])
        | .rateLimit =>
          if r = 0 then (some (createFallbackSummary content title), [])
          else ((summarizeLoop oracle content title (a + 1) r).1,
                2 ^ a :: (summarizeLoop oracle content title (a + 1) r).2)
        | .apiError =>
          if r = 0 then (some (createFallbackSummary content title), [])
          else ((summarizeLoop oracle content title (a + 1) r).1,
                1 :: (summarizeLoop oracle content title (a + 1) r).2)
        | .otherExc =>
          if r = 0 then (some (createFallbackSummary content title), [])
          else ((summarizeLoop oracle content title (a + 1) r).1,
                1 :: (summarizeLoop oracle content title (a + 1) r).2) := rfl

theorem summarizeLoop_some (oracle : Nat → ApiOutcome) (content title : Str) :
    ∀ r a, 1 ≤ r →
      ∃ m, (summarizeLoop oracle content title a r).1 = some m ∧ 0 < m.length := by
  intro r
  induction r with
  | zero => intro a h; omega
  | succ n ih =>
    intro a _
    cases ho : oracle a with
    | success text =>
      by_cases hs : pyStrip text ≠ [] ∧ 50 < (pyStrip text).length
      · exact ⟨formatSummary (pyStrip text) title,
          by rw [summarizeLoop_step]; simp [ho, hs], formatSummary_length_pos _ _⟩
      · exact ⟨createFallbackSummary content title,
          by rw [summarizeLoop_step]; simp [ho, hs], createFallbackSummary_length_pos _ _⟩
    | rateLimit =>
      cases n with
      | zero =>
        exact ⟨createFallbackSummary content title,
          by rw [summarizeLoop_step]; simp [ho], createFallbackSummary_length_pos _ _⟩
      | succ k =>
        obtain ⟨m, hm, hl⟩ := ih (a + 1) (by omega)
        refine ⟨m, ?_, hl⟩
        rw [summarizeLoop_step]
        simp only [ho]
        rw [if_neg (by omega)]
        exact hm
    | apiError =>
      cases n with
      | zero =>
        exact ⟨createFallbackSummary content title,
          by rw [summarizeLoop_step]; simp [ho], createFallbackSummary_length_pos _ _⟩
      | succ k =>
        obtain ⟨m, hm, hl⟩ := ih (a + 1) (by omega)
        refine ⟨m, ?_, hl⟩
        rw [summarizeLoop_step]
        simp only [ho]
        rw [if_neg (by omega)]
        exact hm
    | otherExc =>
      cases n with
      | zero =>
        exact ⟨createFallbackSummary content title,
          by rw [summarizeLoop_step]; simp [ho], createFallbackSummary_length_pos _ _⟩
      | succ k =>
        obtain ⟨m, hm, hl⟩ := ih (a + 1) (by omega)
        refine ⟨m, ?_, hl⟩
        rw [summarizeLoop_step]
        simp only [ho]
        rw [if_neg (by omega)]
        exact hm

/-- C3 (amended): for every content whose stripped form has at least 50
characters, `summarize_newsletter` returns a message — never an exception and
never an absent value — and the message is non-empty, on the AI path and on
every fallback path, whatever the dependency's responses are. -/
theorem summarizer_returns_message (oracle : Nat → ApiOutcome)
    (content title : Str) (h : 50 ≤ (pyStrip content).length) :
    ∃ m, (summarizeNewsletter oracle content title).1 = some m ∧ 0 < m.length := by
  have hne : ¬(content = [] ∨ (pyStrip content).length < 50) := by
    push_neg
    refine ⟨?_, by omega⟩
    intro he
    rw [he] at h
    simp [pyStrip] at h
  rw [summarizeNewsletter, if_neg hne]
  exact summarizeLoop_some oracle content title maxRetries 0 (by decide)

/-- C3 witness: a 60-character content, with the dependency always
rate-limited, still yields a non-empty message. -/
theorem summarizer_returns_message_witness :
    50 ≤ (pyStrip (List.replicate 60 'c')).length
    ∧ ∃ m, (summarizeNewsletter (fun _ => ApiOutcome.rateLimit)
        (List.replicate 60 'c') ("T".data)).1 = some m ∧ 0 < m.length :=
  ⟨by decide,
   summarizer_returns_message (fun _ => ApiOutcome.rateLimit)
     (List.replicate 60 'c') ("T".data) (by decide)⟩

/-- C3 counterexample: the non-empty content `"AI"` (stripped length 2 < 50)
makes `summarize_newsletter` return `None` — no displayable Message — so the
claim fails for short non-empty inputs. -/
theorem summarizer_short_input_counterexample :
    ("AI".data ≠ ([] : Str))
    ∧ (summarizeNewsletter (fun _ => ApiOutcome.otherExc)
        ("AI".data) ("T".data)).1 = none := by
  refine ⟨by decide, by decide⟩

/-- Point-update of an oracle, to pin the outcome of a single attempt. -/
def setOutcome (o : Nat → ApiOutcome) (i : Nat) (v : ApiOutcome) :
    Nat → ApiOutcome :=
  fun j => if j = i then v else o j

/-- The three failure signals of the retry loop. -/
inductive FailKind where
  | rate
  | api
  | other
deriving DecidableEq

def failOutcome : FailKind → ApiOutcome
  | .rate => .rateLimit
  | .api => .apiError
  | .other => .otherExc

/-- The sleep the loop performs before retrying after a failure at attempt
`a`: `2 ** a` on a rate limit, a fixed 1 second otherwise. -/
def failDelay : FailKind → Nat → Nat
  | .rate, a => 2 ^ a
  | .api, _ => 1
  | .other, _ => 1

theorem summarizeLoop_congr (o₁ o₂ : Nat → ApiOutcome) (content title : Str) :
    ∀ r a, (∀ i, a ≤ i → i < a + r → o₁ i = o₂ i) →
      summarizeLoop o₁ content title a r = summarizeLoop o₂ content title a r := by
  intro r
  induction r with
  | zero => intro a _; rfl
  | succ n ih =>
    intro a hag
    have ha : o₁ a = o₂ a := hag a (Nat.le_refl a) (by omega)
    have hrest : ∀ i, a + 1 ≤ i → i < a + 1 + n → o₁ i = o₂ i :=
      fun i h1 h2 => hag i (by omega) (by omega)
    rw [summarizeLoop_step, summarizeLoop_step, ← ha]
    cases o₁ a with
    | success text => rfl
    | rateLimit => rw [ih (a + 1) hrest]
    | apiError => rw [ih (a + 1) hrest]
    | otherExc => rw [ih (a + 1) hrest]

theorem keySentences_le_three (content : Str) :
    (keySentences content).length ≤ 3 := by
  unfold keySentences
  generalize ((splitDot content).take 10) = l
  have h : ∀ (l : List Str) (acc : List Str), acc.length ≤ 3 →
      (l.foldl (fun acc sen =>
        if 3 ≤ acc.length then acc
        else
          let s := pyStrip sen
          if 20 < s.length
              ∧ fallbackKeywords.any (fun k => containsSeq (lowerStr k) (lowerStr s))
          then acc ++ [s ++ ['.']]
          else acc) acc).length ≤ 3 := by
    intro l
    induction l with
    | nil => intro acc h; simpa using h
    | cons sen rest ih =>
      intro acc hacc
      simp only [List.foldl_cons]
      by_cases h3 : 3 ≤ acc.length
      · rw [if_pos h3]
        exact ih acc hacc
      · rw [if_neg h3]
        by_cases hk : 20 < (pyStrip sen).length
            ∧ fallbackKeywords.any (fun k => containsSeq (lowerStr k) (lowerStr (pyStrip sen)))
        · simp only [hk, if_pos]
          exact ih _ (by simp; omega)
        · simp only [hk, if_neg, not_false_iff]
          exact ih acc hacc
  exact h l [] (by simp)

/-- C5 (amended): the loop consults the dependency on at most 3 attempts; a
rate-limit on a non-final attempt sleeps `2 ** attempt` seconds (1s base,
doubling) then retries; a transient API error sleeps a fixed 1 second then
retries; **any other exception is retried in exactly the same way** (fixed 1
second, not immediately fatal as the claim states); when all attempts fail the
result is the extractive fallback summary, whose shape is up to 3
keyword-bearing sentences or the fixed generic template when none match. -/
theorem summarizer_retry_policy (o junk : Nat → ApiOutcome)
    (g : Nat → FailKind) (content title : Str) (a r : Nat) :
    (summarizeNewsletter (fun i => if i < maxRetries then o i else junk i)
        content title = summarizeNewsletter o content title)
    ∧ (summarizeLoop (setOutcome o a .rateLimit) content title a (r + 2)
        = ((summarizeLoop (setOutcome o a .rateLimit) content title (a + 1) (r + 1)).1,
           2 ^ a :: (summarizeLoop (setOutcome o a .rateLimit) content title (a + 1) (r + 1)).2))
    ∧ (summarizeLoop (setOutcome o a .apiError) content title a (r + 2)
        = ((summarizeLoop (setOutcome o a .apiError) content title (a + 1) (r + 1)).1,
           1 :: (summarizeLoop (setOutcome o a .apiError) content title (a + 1) (r + 1)).2))
    ∧ (summarizeLoop (setOutcome o a .otherExc) content title a (r + 2)
        = ((summarizeLoop (setOutcome o a .otherExc) content title (a + 1) (r + 1)).1,
           1 :: (summarizeLoop (setOutcome o a .otherExc) content title (a + 1) (r + 1)).2))
    ∧ (50 ≤ (pyStrip content).length →
        summarizeNewsletter (fun i => failOutcome (g i)) content title
          = (some (createFallbackSummary content title),
             [failDelay (g 0) 0, failDelay (g 1) 1]))
    ∧ (keySentences content = [] →
        createFallbackSummary content title
          = formatSummary genericFallback
              (if title = [] then ("AI Newsletter Update".data) else title))
    ∧ (keySentences content).length ≤ 3 := by
  refine ⟨?_, ?_, ?_, ?_, ?_, ?_, keySentences_le_three content⟩
  · unfold summarizeNewsletter
    by_cases hg : content = [] ∨ (pyStrip content).length < 50
    · rw [if_pos hg, if_pos hg]
    · rw [if_neg hg, if_neg hg]
      exact summarizeLoop_congr _ o content title maxRetries 0
        (fun i h1 h2 => by
          have hi : i < maxRetries := by omega
          rw [if_pos hi])
  · rw [show r + 2 = (r + 1) + 1 from rfl, summarizeLoop_step]
    have hset : setOutcome o a ApiOutcome.rateLimit a = ApiOutcome.rateLimit := by
      simp [setOutcome]
    simp only [hset]
    rw [if_neg (by omega : ¬r + 1 = 0)]
  · rw [show r + 2 = (r + 1) + 1 from rfl, summarizeLoop_step]
    have hset : setOutcome o a ApiOutcome.apiError a = ApiOutcome.apiError := by
      simp [setOutcome]
    simp only [hset]
    rw [if_neg (by omega : ¬r + 1 = 0)]
  · rw [show r + 2 = (r + 1) + 1 from rfl, summarizeLoop_step]
    have hset : setOutcome o a ApiOutcome.otherExc a = ApiOutcome.otherExc := by
      simp [setOutcome]
    simp only [hset]
    rw [if_neg (by omega : ¬r + 1 = 0)]
  · intro h
    have hne : ¬(content = [] ∨ (pyStrip content).length < 50) := by
      push_neg
      refine ⟨?_, by omega⟩
      intro he
      rw [he] at h
      simp [pyStrip] at h
    rw [summarizeNewsletter, if_neg hne]
    show summarizeLoop (fun i => failOutcome (g i)) content title 0 3 = _
    rw [show (3 : Nat) = 2 + 1 from rfl, summarizeLoop_step]
    cases hg0 : g 0 <;>
      simp only [hg0, failOutcome, if_neg (by omega : ¬(2 : Nat) = 0)] <;>
      rw [show (2 : Nat) = 1 + 1 from rfl, summarizeLoop_step] <;>
      cases hg1 : g 1 <;>
        simp only [hg1, failOutcome, if_neg (by omega : ¬(1 : Nat) = 0)] <;>
        rw [summarizeLoop_step] <;>
        cases hg2 : g 2 <;>
          simp [hg2, failOutcome, failDelay, hg0, hg1]
  · intro h
    unfold createFallbackSummary
    rw [if_pos h]

/-- C5 witness: with the dependency rate-limited on every attempt and a
keyword-free 60-character content, the loop sleeps 1s then 2s and returns the
generic-template fallback. -/
theorem summarizer_retry_policy_witness :
    (50 ≤ (pyStrip (List.replicate 60 'c')).length
      ∧ summarizeNewsletter (fun i => failOutcome ((fun _ => FailKind.rate) i))
          (List.replicate 60 'c') ("T".data)
        = (some (createFallbackSummary (List.replicate 60 'c') ("T".data)), [1, 2]))
    ∧ (keySentences (List.replicate 60 'c') = []
      ∧ createFallbackSummary (List.replicate 60 'c') ("T".data)
        = formatSummary genericFallback ("T".data)) := by
  have h := summarizer_retry_policy (fun _ => ApiOutcome.rateLimit)
    (fun _ => ApiOutcome.rateLimit) (fun _ => FailKind.rate)
    (List.replicate 60 'c') ("T".data) 0 0
  refine ⟨⟨by decide, ?_⟩, by decide, ?_⟩
  · have := h.2.2.2.2.1 (by decide)
    simpa [failDelay] using this
  · have := h.2.2.2.2.2.1 (by decide)
    simpa using this

/-- C5 counterexample: the claim says any non-rate-limit, non-API-error
exception is immediately fatal to the attempt sequence (no further retries);
in the code an unexpected exception on attempt 1 is retried after a 1-second
sleep, and the successful attempt 2 returns the AI-formatted summary, not the
fallback. -/
theorem summarizer_other_exception_retried :
    summarizeNewsletter
        (fun i => if i = 0 then ApiOutcome.otherExc
                  else ApiOutcome.success (List.replicate 60 'q'))
        (List.replicate 60 'c') ("T".data)
      = (some (formatSummary (List.replicate 60 'q') ("T".data)), [1])
    ∧ formatSummary (List.replicate 60 'q') ("T".data)
      ≠ createFallbackSummary (List.replicate 60 'c') ("T".data) := by
  refine ⟨by decide, by decide⟩

theorem pyStrip_length_le (s : Str) : (pyStrip s).length ≤ s.length := by
  unfold pyStrip
  rw [List.length_reverse]
  calc ((s.dropWhile isPySpace).reverse.dropWhile isPySpace).length
      ≤ (s.dropWhile isPySpace).reverse.length := dropWhile_length_le _ _
    _ = (s.dropWhile isPySpace).length := List.length_reverse _
    _ ≤ s.length := dropWhile_length_le _ _

theorem pySliceTo_length_le (s : Str) (n : Int) (hn : 0 ≤ n) :
    (pySliceTo s n).length ≤ n.toNat := by
  unfold pySliceTo
  rw [if_neg (by omega)]
  simp

theorem footerTail_length : ((("\n\n".data) : Str) ++ footerF).length = 82 := by
  decide

theorem availableLength_eq (t : Str) :
    availableLength t = 3881 - (t.length : Int) := by
  unfold availableLength
  have h1 : (("🤖 **AI Newsletter Summary**\n\n📰 **".data : Str)).length = 33 := by
    decide
  have h2 : (("**\n\n".data : Str)).length = 4 := by decide
  rw [h1, h2, footerTail_length]
  push_cast
  ring

theorem titleBlockTrunc_length (t : Str) :
    (titleBlockTrunc t).length ≤ 8 + (pyStrip t).length := by
  unfold titleBlockTrunc
  by_cases ht : t ≠ []
  · rw [if_pos ht]
    simp [List.length_append]
    have : (("📰 **".data : Str)).length = 4 := by decide
    have h2 : (("**\n\n".data : Str)).length = 4 := by decide
    omega
  · rw [if_neg ht]
    simp

/-- C7 (amended): for every summary and every title of length at most 3881
(so the reserved title budget is non-negative), the formatter's output is at
most 4003 characters — 4000 plus the 3-character `"..."` marker it appends
after cutting, so the claimed hard 4000 maximum is exceeded by up to 3 —
and the fixed header is an intact prefix and the fixed footer an intact
suffix of the output. -/
theorem formatter_bounded_4003 (s t : Str) (ht : t.length ≤ 3881) :
    (formatSummary s t).length ≤ 4003
    ∧ (∃ rest, formatSummary s t = headerA ++ rest)
    ∧ (∃ ini, formatSummary s t = ini ++ ((("\n\n".data) : Str) ++ footerF)) := by
  unfold formatSummary
  by_cases hif : 4000 < (headerA ++ titleBlockFirst t ++ replacedSummary s
      ++ ("\n\n".data) ++ footerF).length
  · rw [if_pos hif]
    refine ⟨?_, ⟨_, rfl⟩,
      ⟨headerA ++ titleBlockTrunc t
        ++ (pySliceTo (replacedSummary s) (availableLength t) ++ ("...".data)),
       by simp [List.append_assoc]⟩⟩
    have hA : headerA.length = 29 := headerA_length
    have hav : 0 ≤ availableLength t := by
      rw [availableLength_eq]
      omega
    have hant : (availableLength t).toNat = 3881 - t.length := by
      rw [availableLength_eq]
      omega
    have hs5 : (pySliceTo (replacedSummary s) (availableLength t)).length
        ≤ 3881 - t.length := by
      calc (pySliceTo (replacedSummary s) (availableLength t)).length
          ≤ (availableLength t).toNat := pySliceTo_length_le _ _ hav
        _ = 3881 - t.length := hant
    have htb := titleBlockTrunc_length t
    have hst := pyStrip_length_le t
    have h3 : (("...".data : Str)).length = 3 := by decide
    have h82 := footerTail_length
    simp only [List.length_append, hA, h3] at *
    omega
  · rw [if_neg hif]
    refine ⟨by omega, ⟨_, rfl⟩,
      ⟨headerA ++ titleBlockFirst t ++ replacedSummary s,
       by simp [List.append_assoc]⟩⟩

/-- C7 witness: a concrete summary and single-character title. -/
theorem formatter_bounded_4003_witness :
    (("T".data : Str)).length ≤ 3881
    ∧ (formatSummary ("hello world".data) ("T".data)).length ≤ 4003 :=
  ⟨by decide, (formatter_bounded_4003 ("hello world".data) ("T".data) (by decide)).1⟩

theorem containsSeq_replicate {p0 c : Char} (ps : Str) (n : Nat) (h : p0 ≠ c) :
    containsSeq (p0 :: ps) (List.replicate n c) = false := by
  induction n with
  | zero => rfl
  | succ m ih =>
    rw [List.replicate_succ]
    unfold containsSeq
    rw [ih, Bool.or_false]
    unfold startsList
    simp [h]

theorem pyReplaceAux_id (p0 : Char) (ps rep : Str) (fuel : Nat) (s : Str)
    (h : containsSeq (p0 :: ps) s = false) :
    pyReplaceAux p0 ps rep fuel s = s := by
  induction fuel generalizing s with
  | zero => cases s <;> rfl
  | succ f ih =>
    cases s with
    | nil => rfl
    | cons c cs =>
      unfold containsSeq at h
      rw [Bool.or_eq_false_iff] at h
      rw [pyReplaceAux, if_neg (by simp [h.1]), ih cs h.2]

theorem pyReplace_id (p0 : Char) (ps rep : Str) (s : Str)
    (h : containsSeq (p0 :: ps) s = false) : pyReplace p0 ps rep s = s :=
  pyReplaceAux_id p0 ps rep s.length s h

theorem dropWhile_replicate_nonspace (n : Nat) (c : Char)
    (h : isPySpace c = false) :
    (List.replicate n c).dropWhile isPySpace = List.replicate n c := by
  apply dropWhile_eq_self_of_head
  intro d hd
  cases n with
  | zero => simp at hd
  | succ m =>
    rw [List.replicate_succ] at hd
    simp at hd
    rw [← hd]
    exact h

theorem pyStrip_replicate (n : Nat) (c : Char) (h : isPySpace c = false) :
    pyStrip (List.replicate n c) = List.replicate n c := by
  unfold pyStrip
  rw [dropWhile_replicate_nonspace n c h, List.reverse_replicate,
    dropWhile_replicate_nonspace n c h, List.reverse_replicate]

/-- C7 counterexample: a 4000-character summary with title `"T"` produces a
4003-character message — the truncation branch appends `"..."` after cutting
to the 4000 budget, so the hard 4000-unit maximum of the claim is exceeded
(Telegram's real 4096 limit still holds). -/
theorem formatter_exceeds_4000 :
    (formatSummary (List.replicate 4000 'a') ("T".data)).length = 4003
    ∧ 4000 < (formatSummary (List.replicate 4000 'a') ("T".data)).length := by
  have hrep : replacedSummary (List.replicate 4000 'a') = List.replicate 4000 'a' := by
    unfold replacedSummary
    rw [pyStrip_replicate 4000 'a' (by decide),
      pyReplace_id '•' [] _ _ (containsSeq_replicate _ _ (by decide)),
      pyReplace_id '-' [' '] _ _ (containsSeq_replicate _ _ (by decide)),
      pyReplace_id '*' [' '] _ _ (containsSeq_replicate _ _ (by decide))]
  have hA : headerA.length = 29 := headerA_length
  have hF : footerF.length = 80 := by decide
  have hnn : ((("\n\n".data) : Str)).length = 2 := by decide
  have htbf : (titleBlockFirst ("T".data)).length = 9 := by decide
  have htbt : (titleBlockTrunc ("T".data)).length = 9 := by decide
  have h3 : (("...".data : Str)).length = 3 := by decide
  have hfirst : 4000 < (headerA ++ titleBlockFirst ("T".data)
      ++ List.replicate 4000 'a' ++ ("\n\n".data) ++ footerF).length := by
    simp only [List.length_append, hA, htbf, hnn, hF, List.length_replicate]
    omega
  have hav : availableLength ("T".data) = 3880 := by
    rw [availableLength_eq]
    decide
  have hslice : (pySliceTo (List.replicate 4000 'a') (availableLength ("T".data))).length
      = 3880 := by
    rw [hav]
    unfold pySliceTo
    rw [if_neg (by omega), List.length_take, List.length_replicate,
      show Int.toNat 3880 = 3880 from rfl]
    omega
  have hmain : (formatSummary (List.replicate 4000 'a') ("T".data)).length = 4003 := by
    unfold formatSummary
    rw [hrep, if_pos hfirst]
    simp only [List.length_append, hA, htbt, hnn, hF, h3, hslice]
  exact ⟨hmain, by omega⟩

/-! ## The run task: `NewsletterScheduler.process_and_send_newsletter`
(claim C8) -/

/-- Result of one awaited step inside the run's `try` block: a value, or an
unexpected exception caught by the outer `except Exception`. -/
inductive StepRes (α : Type) where
  | ok (a : α) : StepRes α
  | exn : StepRes α
deriving DecidableEq

/-- The observable outcome of one invocation of the run task.  There is no
"exception propagated" outcome: the outer `except Exception` always absorbs
the error after logging a failed record. -/
inductive RunOutcome where
  | skippedAlready
  | noContent
  | noSummary
  | errorLogged
  | completed (reached : Nat)
deriving DecidableEq

/-- `NewsletterScheduler.process_and_send_newsletter`, parameterised by the
results of its awaited collaborators: the fetched newsletter (`none` models a
falsy fetch result), the summarizer call (`.ok none` models a falsy summary,
`.exn` an unexpected exception), and the broadcast (returning the reached
count).  Returns the updated `newsletter_logs` and the outcome. -/
def processAndSendNewsletter (logs : List RunRecord) (now : Nat)
    (fetched : Option ContentItem) (summaryRes : StepRes (Option Str))
    (broadcastRes : StepRes Nat) : List RunRecord × RunOutcome :=
  if alreadyProcessedToday logs now then (logs, .skippedAlready)
  else
    match fetched with
    | none => (logs, .noContent)
    | some nl =>
      match summaryRes with
      | .exn => (logNewsletterSent logs ("Processing Failed".data) 0 false now,
                 .errorLogged)
      | .ok none => (logs, .noSummary)
      | .ok (some s) =>
        if s = [] then (logs, .noSummary)
        else
          match broadcastRes with
          | .exn => (logNewsletterSent logs ("Processing Failed".data) 0 false now,
                     .errorLogged)
          | .ok n => (logNewsletterSent logs nl.title n true now, .completed n)

/-- C8 (amended): a run attempt that passes the day gate appends exactly one
RunRecord when it reaches the broadcast or when an unexpected exception is
caught — in the latter case a failed record (success=false), after which the
exception is swallowed rather than surfaced — but the gate-skip, the
no-content and the no-summary early returns append no record at all. -/
theorem run_records_per_outcome (logs : List RunRecord) (now : Nat)
    (fetched : Option ContentItem) (summaryRes : StepRes (Option Str))
    (broadcastRes : StepRes Nat) (nl : ContentItem) (s : Str) (n : Nat) :
    (alreadyProcessedToday logs now = true →
      processAndSendNewsletter logs now fetched summaryRes broadcastRes
        = (logs, .skippedAlready))
    ∧ (alreadyProcessedToday logs now = false → fetched = none →
      processAndSendNewsletter logs now fetched summaryRes broadcastRes
        = (logs, .noContent))
    ∧ (alreadyProcessedToday logs now = false → fetched = some nl →
      summaryRes = .ok none →
      processAndSendNewsletter logs now fetched summaryRes broadcastRes
        = (logs, .noSummary))
    ∧ (alreadyProcessedToday logs now = false → fetched = some nl →
      summaryRes = .exn →
      processAndSendNewsletter logs now fetched summaryRes broadcastRes
        = (logNewsletterSent logs ("Processing Failed".data) 0 false now,
           .errorLogged))
    ∧ (alreadyProcessedToday logs now = false → fetched = some nl →
      summaryRes = .ok (some s) → s ≠ [] → broadcastRes = .exn →
      processAndSendNewsletter logs now fetched summaryRes broadcastRes
        = (logNewsletterSent logs ("Processing Failed".data) 0 false now,
           .errorLogged))
    ∧ (alreadyProcessedToday logs now = false → fetched = some nl →
      summaryRes = .ok (some s) → s ≠ [] → broadcastRes = .ok n →
      processAndSendNewsletter logs now fetched summaryRes broadcastRes
        = (logNewsletterSent logs nl.title n true now, .completed n)) := by
  refine ⟨?_, ?_, ?_, ?_, ?_, ?_⟩
  · intro h
    unfold processAndSendNewsletter
    rw [if_pos h]
  · intro h hf
    unfold processAndSendNewsletter
    rw [if_neg (by simp [h]), hf]
  · intro h hf hs
    unfold processAndSendNewsletter
    rw [if_neg (by simp [h]), hf, hs]
  · intro h hf hs
    unfold processAndSendNewsletter
    rw [if_neg (by simp [h]), hf, hs]
  · intro h hf hs hne hb
    unfold processAndSendNewsletter
    rw [if_neg (by simp [h]), hf, hs, hb]
    simp [hne]
  · intro h hf hs hne hb
    unfold processAndSendNewsletter
    rw [if_neg (by simp [h]), hf, hs, hb]
    simp [hne]

/-- C8 witness: a concrete run through every conjunct's hypothesis at the
completed-broadcast instance. -/
theorem run_records_per_outcome_witness :
    alreadyProcessedToday [] 0 = false
    ∧ processAndSendNewsletter [] 0 (some (mockNewsletterItem []))
        (.ok (some ("m".data))) (.ok 5)
      = (logNewsletterSent [] (mockNewsletterItem []).title 5 true 0,
         .completed 5) := by
  refine ⟨by decide, ?_⟩
  exact (run_records_per_outcome [] 0 (some (mockNewsletterItem []))
    (.ok (some ("m".data))) (.ok 5) (mockNewsletterItem []) ("m".data) 5).2.2.2.2.2
    (by decide) rfl rfl (by decide) rfl

/-- C8 counterexample: a gate-passing run attempt whose summarizer returns a
falsy value appends **zero** RunRecords (the claim demands exactly one per
attempt), and that falsy value is reachable — the real summarizer returns
`None` for stripped content under 50 characters.  Moreover an unexpected
exception is swallowed after logging (outcome `errorLogged`), it does not
surface out of the run task. -/
theorem run_writes_no_record_counterexample :
    (processAndSendNewsletter [] 0 (some (mockNewsletterItem []))
        (.ok none) (.ok 5)).1 = []
    ∧ (processAndSendNewsletter [] 0 (some (mockNewsletterItem []))
        (.ok none) (.ok 5)).2 = .noSummary
    ∧ (summarizeNewsletter (fun _ => ApiOutcome.otherExc) ("AI tools".data)
        ("T".data)).1 = none
    ∧ (processAndSendNewsletter [] 0 (some (mockNewsletterItem []))
        .exn (.ok 5)).2 = .errorLogged := by
  refine ⟨by decide, by decide, by decide, by decide⟩

/-! ## Gmail candidate scoring: `GmailFetcher.fetch_latest_newsletter` and
`_score_email_relevance` (claim C9) -/

/-- One fetched email, as produced by `_get_email_content`. -/
structure EmailMsg where
  id : Str
  subject : Str
  sender : Str
  date : Str
  body : Str
deriving DecidableEq

/-- `GmailFetcher._score_email_relevance`: the weighted relevance function
over lowercased subject keywords, sender domain allowlist, body length, and
body keywords. -/
def scoreEmailRelevance (email : EmailMsg) : Nat :=
  (if [("newsletter".data), ("digest".data), ("update".data), ("weekly".data),
       ("daily".data)].any
      (fun k => containsSeq k (lowerStr email.subject)) then 10 else 0)
  + (if [("ai".data), ("artificial intelligence".data),
         ("machine learning".data), ("tech".data)].any
      (fun k => containsSeq k (lowerStr email.subject)) then 8 else 0)
  + (if [("openai.com".data), ("anthropic.com".data), ("deepmind.com".data)].any
      (fun k => containsSeq k (lowerStr email.sender)) then 15 else 0)
  + (if [("newsletter".data), ("digest".data), ("update".data), ("news".data)].any
      (fun k => containsSeq k (lowerStr email.sender)) then 5 else 0)
  + (if 1000 < email.body.length then 5 else 0)
  + (if [("artificial intelligence".data), ("machine learning".data),
         ("technology".data), ("innovation".data)].any
      (fun k => containsSeq k (lowerStr email.body)) then 3 else 0)

/-- The newsletter dictionary returned for the selected email:
`{title, content, link, published, source, sender}`. -/
structure GmailItem where
  title : Str
  content : Str
  link : Str
  published : Str
  source : Str
  sender : Str
deriving DecidableEq

def toNewsletterDict (e : EmailMsg) : GmailItem :=
  { title := e.subject
    content := e.body
    link := ("gmail://message/".data) ++ e.id
    published := e.date
    source := "gmail".data
    sender := e.sender }

/-- One iteration of the best-email loop: `if score > best_score`. -/
def bestEmailStep (acc : Option EmailMsg × Nat) (e : EmailMsg) :
    Option EmailMsg × Nat :=
  if acc.2 < scoreEmailRelevance e then (some e, scoreEmailRelevance e) else acc

/-- `GmailFetcher.fetch_latest_newsletter`, applied to the already-fetched
candidate list: return `None` on an empty list, otherwise scan all candidates
keeping the first strict maximum (starting from `best_score = 0`), and return
the best email converted to the common dictionary shape — or `None` if no
candidate scored above 0. -/
def fetchLatestGmail (emails : List EmailMsg) : Option GmailItem :=
  if emails.isEmpty then none
  else
    match (emails.foldl bestEmailStep (none, 0)).1 with
    | some best => some (toNewsletterDict best)
    | none => none

theorem bestEmailStep_fold (l : List EmailMsg) :
    ∀ acc : Option EmailMsg × Nat,
      (l.foldl bestEmailStep acc = acc
        ∨ ∃ b ∈ l, l.foldl bestEmailStep acc = (some b, scoreEmailRelevance b))
      ∧ acc.2 ≤ (l.foldl bestEmailStep acc).2
      ∧ ∀ e ∈ l, scoreEmailRelevance e ≤ (l.foldl bestEmailStep acc).2 := by
  induction l with
  | nil =>
    intro acc
    exact ⟨Or.inl rfl, Nat.le_refl _, fun e he => absurd he (List.not_mem_nil e)⟩
  | cons e t ih =>
    intro acc
    have hstep : bestEmailStep acc e = acc
        ∨ bestEmailStep acc e = (some e, scoreEmailRelevance e) := by
      unfold bestEmailStep
      by_cases hlt : acc.2 < scoreEmailRelevance e
      · exact Or.inr (by rw [if_pos hlt])
      · exact Or.inl (by rw [if_neg hlt])
    have hstep2 : acc.2 ≤ (bestEmailStep acc e).2 := by
      unfold bestEmailStep
      by_cases hlt : acc.2 < scoreEmailRelevance e
      · rw [if_pos hlt]; omega
      · rw [if_neg hlt]
    have hstepe : scoreEmailRelevance e ≤ (bestEmailStep acc e).2 := by
      unfold bestEmailStep
      by_cases hlt : acc.2 < scoreEmailRelevance e
      · rw [if_pos hlt]
      · rw [if_neg hlt]; omega
    obtain ⟨iha, ihb, ihc⟩ := ih (bestEmailStep acc e)
    rw [List.foldl_cons]
    refine ⟨?_, Nat.le_trans hstep2 ihb, ?_⟩
    · rcases iha with h | ⟨b, hb, hr⟩
      · rcases hstep with hs | hs
        · exact Or.inl (by rw [h, hs])
        · exact Or.inr ⟨e, List.mem_cons_self e t, by rw [h, hs]⟩
      · exact Or.inr ⟨b, List.mem_cons_of_mem e hb, hr⟩
    · intro x hx
      rcases List.mem_cons.mp hx with hxe | hxt
      · rw [hxe]
        exact Nat.le_trans hstepe ihb
      · exact ihc x hxt

/-- C9 (amended): when some candidate scores above zero, the fetcher scores
every candidate, selects a maximum-scoring one and returns it in the common
dictionary shape (title, content, link, published, source, sender); when all
candidates score zero — or the candidate set is empty — it returns `None`,
selecting nothing. -/
theorem gmail_selects_max (emails : List EmailMsg) :
    ((∃ e ∈ emails, 0 < scoreEmailRelevance e) →
      ∃ b ∈ emails, fetchLatestGmail emails = some (toNewsletterDict b)
        ∧ ∀ e ∈ emails, scoreEmailRelevance e ≤ scoreEmailRelevance b)
    ∧ ((∀ e ∈ emails, scoreEmailRelevance e = 0) →
      fetchLatestGmail emails = none) := by
  constructor
  · rintro ⟨e0, he0, hpos⟩
    have hne : ¬emails.isEmpty := by
      intro he
      rw [List.isEmpty_iff] at he
      rw [he] at he0
      exact absurd he0 (List.not_mem_nil e0)
    obtain ⟨ha, _, hc⟩ := bestEmailStep_fold emails ((none : Option EmailMsg), 0)
    rcases ha with h | ⟨b, hb, hr⟩
    · exfalso
      have := hc e0 he0
      rw [h] at this
      simp at this
      omega
    · refine ⟨b, hb, ?_, ?_⟩
      · unfold fetchLatestGmail
        rw [if_neg hne, hr]
      · intro e he
        have := hc e he
        rw [hr] at this
        exact this
  · intro hz
    have hfold : ∀ l : List EmailMsg, (∀ e ∈ l, scoreEmailRelevance e = 0) →
        l.foldl bestEmailStep ((none : Option EmailMsg), 0) = (none, 0) := by
      intro l
      induction l with
      | nil => intro _; rfl
      | cons e t ih =>
        intro hzl
        rw [List.foldl_cons]
        have hze : scoreEmailRelevance e = 0 := hzl e (List.mem_cons_self e t)
        have hs : bestEmailStep ((none : Option EmailMsg), 0) e = (none, 0) := by
          unfold bestEmailStep
          rw [hze]
          simp
        rw [hs]
        exact ih (fun x hx => hzl x (List.mem_cons_of_mem e hx))
    unfold fetchLatestGmail
    by_cases hne : emails.isEmpty
    · rw [if_pos hne]
    · rw [if_neg hne, hfold emails hz]

/-- C9 witness: a relevant candidate (subject contains "newsletter" and "ai")
beats an irrelevant one and is returned converted. -/
theorem gmail_selects_max_witness :
    (∃ e ∈ [⟨("1".data), ("hello".data), ("bob".data), ("d".data), ("x".data)⟩,
            ⟨("2".data), ("AI newsletter".data), ("news@openai.com".data),
             ("d".data), ("body".data)⟩],
        0 < scoreEmailRelevance e)
    ∧ ∃ b ∈ [(⟨("1".data), ("hello".data), ("bob".data), ("d".data),
              ("x".data)⟩ : EmailMsg),
             ⟨("2".data), ("AI newsletter".data), ("news@openai.com".data),
              ("d".data), ("body".data)⟩],
        fetchLatestGmail
            [⟨("1".data), ("hello".data), ("bob".data), ("d".data), ("x".data)⟩,
             ⟨("2".data), ("AI newsletter".data), ("news@openai.com".data),
              ("d".data), ("body".data)⟩]
          = some (toNewsletterDict b)
        ∧ ∀ e ∈ [(⟨("1".data), ("hello".data), ("bob".data), ("d".data),
                  ("x".data)⟩ : EmailMsg),
                 ⟨("2".data), ("AI newsletter".data), ("news@openai.com".data),
                  ("d".data), ("body".data)⟩],
            scoreEmailRelevance e ≤ scoreEmailRelevance b :=
  ⟨by decide,
   (gmail_selects_max
     [⟨("1".data), ("hello".data), ("bob".data), ("d".data), ("x".data)⟩,
      ⟨("2".data), ("AI newsletter".data), ("news@openai.com".data),
       ("d".data), ("body".data)⟩]).1 (by decide)⟩

/-- C9 counterexample: a non-empty candidate set in which every candidate
scores 0 — the strict `score > best_score` comparison against the initial
`best_score = 0` then never selects anything and the fetcher returns `None`,
contradicting the claim that some candidate is always selected from a
non-empty set. -/
theorem gmail_empty_selection_counterexample :
    ([(⟨("1".data), ("hello".data), ("bob".data), ("d".data), ("x".data)⟩ :
        EmailMsg)] ≠ [])
    ∧ fetchLatestGmail
        [⟨("1".data), ("hello".data), ("bob".data), ("d".data), ("x".data)⟩]
      = none := by
  refine ⟨by decide, by decide⟩

/-! ## `NewsletterBot.subscribe_command` / `unsubscribe_command` (claim C10)

A full row of the `subscribers` table (`user_id INTEGER PRIMARY KEY, username
TEXT, first_name TEXT, subscribed_at DATETIME DEFAULT CURRENT_TIMESTAMP,
is_active BOOLEAN DEFAULT TRUE`); the broadcaster's `Subscriber` is its
projection onto the columns that `send_to_subscribers` reads. -/

structure SubscriberRow where
  user_id : Nat
  username : Str
  first_name : Str
  subscribed_at : Nat
  is_active : Bool
deriving DecidableEq

/-- The Telegram user issuing the command (`update.effective_user`). -/
structure TelegramUser where
  id : Nat
  username : Str
  first_name : Str
deriving DecidableEq

/-- `subscribe_command`: `SELECT * FROM subscribers WHERE user_id = ?`;
if a row exists, `UPDATE subscribers SET is_active = TRUE WHERE user_id = ?`;
otherwise `INSERT INTO subscribers (user_id, username, first_name)` with the
default enrolment timestamp and active flag. -/
def subscribeCommand (user : TelegramUser) (now : Nat)
    (db : List SubscriberRow) : List SubscriberRow :=
  if db.any (fun r => r.user_id = user.id) then
    db.map (fun r => if r.user_id = user.id then { r with is_active := true } else r)
  else
    db ++ [⟨user.id, user.username, user.first_name, now, true⟩]

/-- `unsubscribe_command`:
`UPDATE subscribers SET is_active = FALSE WHERE user_id = ?`. -/
def unsubscribeCommand (user : TelegramUser) (db : List SubscriberRow) :
    List SubscriberRow :=
  db.map (fun r => if r.user_id = user.id then { r with is_active := false } else r)

/-- C10: subscribing a user who already has a row only flips that row's
active flag to true — the identifier, username, display name and original
enrolled-at timestamp of every row are unchanged and no row is added — and
re-subscribing right after unsubscribing yields the same table as
subscribing directly, preserving the original enrolment timestamp. -/
theorem subscribe_existing_only_flips_active (user : TelegramUser) (now : Nat)
    (db : List SubscriberRow)
    (h : db.any (fun r => r.user_id = user.id) = true) :
    subscribeCommand user now db
      = db.map (fun r =>
          if r.user_id = user.id then { r with is_active := true } else r)
    ∧ (subscribeCommand user now db).length = db.length
    ∧ (subscribeCommand user now db).map
        (fun r => (r.user_id, r.username, r.first_name, r.subscribed_at))
      = db.map (fun r => (r.user_id, r.username, r.first_name, r.subscribed_at))
    ∧ subscribeCommand user now (unsubscribeCommand user db)
      = subscribeCommand user now db := by
  have heq : subscribeCommand user now db
      = db.map (fun r =>
          if r.user_id = user.id then { r with is_active := true } else r) := by
    unfold subscribeCommand
    rw [if_pos h]
  refine ⟨heq, ?_, ?_, ?_⟩
  · rw [heq, List.length_map]
  · rw [heq, List.map_map]
    apply List.map_congr_left
    intro r _
    by_cases hr : r.user_id = user.id <;> simp [hr, Function.comp]
  · have hany : (unsubscribeCommand user db).any (fun r => r.user_id = user.id)
        = true := by
      unfold unsubscribeCommand
      rw [List.any_map]
      have : ((fun r : SubscriberRow => decide (r.user_id = user.id)) ∘
          (fun r => if r.user_id = user.id then { r with is_active := false } else r))
          = fun r => decide (r.user_id = user.id) := by
        funext r
        by_cases hr : r.user_id = user.id <;> simp [hr, Function.comp]
      rw [this]
      exact h
    conv_lhs => unfold subscribeCommand
    rw [if_pos hany, heq]
    unfold unsubscribeCommand
    rw [List.map_map]
    apply List.map_congr_left
    intro r _
    by_cases hr : r.user_id = user.id <;> simp [hr, Function.comp]

/-- C10 witness: re-subscribing an inactive user flips only the flag and
keeps the 2024-era enrolment timestamp and names. -/
theorem subscribe_existing_only_flips_active_witness :
    (([⟨7, ("u7".data), ("Ann".data), 1111, false⟩,
       ⟨9, ("u9".data), ("Bob".data), 2222, true⟩] :
        List SubscriberRow).any (fun r => r.user_id = 7) = true)
    ∧ subscribeCommand ⟨7, ("newname".data), ("Annie".data)⟩ 9999
        [⟨7, ("u7".data), ("Ann".data), 1111, false⟩,
         ⟨9, ("u9".data), ("Bob".data), 2222, true⟩]
      = [⟨7, ("u7".data), ("Ann".data), 1111, true⟩,
         ⟨9, ("u9".data), ("Bob".data), 2222, true⟩] := by
  have h := subscribe_existing_only_flips_active ⟨7, ("newname".data), ("Annie".data)⟩
    9999
    [⟨7, ("u7".data), ("Ann".data), 1111, false⟩,
     ⟨9, ("u9".data), ("Bob".data), 2222, true⟩] (by decide)
  refine ⟨by decide, ?_⟩
  rw [h.1]
  decide
